import Mathlib

/-!
# AXI 1-Wire host driver: register sequencing

A shallow embedding of `axi_1wire_host.c`, `axi_1wire_host.h` and
`axi_1wire_host_selftest.c`.

* `u32` and `u8` values are natural numbers, reduced `% 2 ^ 32` and `% 256` where the C
  code converts.
* The memory-mapped I/O primitives `Xil_In32` and `Xil_Out32` belong to the platform, so the
  driver is embedded over an arbitrary device `Bus σ`: a load returns a value and may change the
  device, a store changes the device.
* Every load and store the driver performs is appended to a log, so that the order of the
  register accesses can be stated.
* The two busy-wait loops have no bound in the C code; the embedding gives each loop `fuel`
  iterations and returns `none` when they are used up.
-/

namespace Axi1WireHost

/-! ## Constants of `axi_1wire_host.h` -/

def AXI_1WIRE_HOST_INSTR_REG_OFFSET : Nat := 0x0
def AXI_1WIRE_HOST_CTRL_REG_OFFSET : Nat := 0x4
def AXI_1WIRE_HOST_IRQCTRL_REG_OFFSET : Nat := 0x8
def AXI_1WIRE_HOST_STAT_REG_OFFSET : Nat := 0xC
def AXI_1WIRE_HOST_RXDATA_REG_OFFSET : Nat := 0x10
def AXI_1WIRE_HOST_GPIODATA_REG_OFFSET : Nat := 0x14
def AXI_1WIRE_HOST_IPVER_REG_OFFSET : Nat := 0x18
def AXI_1WIRE_HOST_IPID_REG_OFFSET : Nat := 0x1C

def AXI_1WIRE_HOST_INITPRES : Nat := 0x0800
def AXI_1WIRE_HOST_READBIT : Nat := 0x0C00
def AXI_1WIRE_HOST_WRITEBIT : Nat := 0x0E00
def AXI_1WIRE_HOST_READBYTE : Nat := 0x0D00
def AXI_1WIRE_HOST_WRITEBYTE : Nat := 0x0F00
def AXI_1WIRE_HOST_RESET : Nat := 0x80000000

/-! ## Device, log and register access -/

/-- One 32-bit bus access: the address and the value loaded or stored. -/
inductive Access where
  | load (addr val : Nat)
  | store (addr val : Nat)
  deriving DecidableEq, Repr

/-- The platform primitives of `xil_io.h`, which the driver takes as given: `Xil_In32 addr`
loads from the device, `Xil_Out32 addr data` stores to it. -/
structure Bus (σ : Type) where
  Xil_In32 : Nat → σ → Nat × σ
  Xil_Out32 : Nat → Nat → σ → σ

/-- The device together with the accesses made so far, oldest first. -/
structure World (σ : Type) where
  dev : σ
  log : List Access

/-- Address arithmetic of both register macros: `(BaseAddress) + (RegOffset)` on `u32`. -/
def regAddr (baseaddr off : Nat) : Nat := (baseaddr + off) % 2 ^ 32

/-- The address of INSTR for the block at `baseaddr`. -/
abbrev INSTR_REG (baseaddr : Nat) : Nat := regAddr baseaddr AXI_1WIRE_HOST_INSTR_REG_OFFSET
/-- The address of CTRL for the block at `baseaddr`. -/
abbrev CTRL_REG (baseaddr : Nat) : Nat := regAddr baseaddr AXI_1WIRE_HOST_CTRL_REG_OFFSET
/-- The address of STAT for the block at `baseaddr`. -/
abbrev STAT_REG (baseaddr : Nat) : Nat := regAddr baseaddr AXI_1WIRE_HOST_STAT_REG_OFFSET
/-- The address of RXDATA for the block at `baseaddr`. -/
abbrev RXDATA_REG (baseaddr : Nat) : Nat := regAddr baseaddr AXI_1WIRE_HOST_RXDATA_REG_OFFSET
/-- The address of GPIODATA for the block at `baseaddr`. -/
abbrev GPIODATA_REG (baseaddr : Nat) : Nat := regAddr baseaddr AXI_1WIRE_HOST_GPIODATA_REG_OFFSET
/-- The address of IPVER for the block at `baseaddr`. -/
abbrev IPVER_REG (baseaddr : Nat) : Nat := regAddr baseaddr AXI_1WIRE_HOST_IPVER_REG_OFFSET
/-- The address of IPID for the block at `baseaddr`. -/
abbrev IPID_REG (baseaddr : Nat) : Nat := regAddr baseaddr AXI_1WIRE_HOST_IPID_REG_OFFSET

/-- `AXI_1WIRE_HOST_mWriteReg(BaseAddress, RegOffset, Data)`:
`Xil_Out32((BaseAddress) + (RegOffset), (u32)(Data))`. -/
def AXI_1WIRE_HOST_mWriteReg {σ : Type} (bus : Bus σ) (baseaddr off data : Nat)
    (w : World σ) : World σ :=
  { dev := bus.Xil_Out32 (regAddr baseaddr off) (data % 2 ^ 32) w.dev
    log := w.log ++ [Access.store (regAddr baseaddr off) (data % 2 ^ 32)] }

/-- `AXI_1WIRE_HOST_mReadReg(BaseAddress, RegOffset)`: `Xil_In32((BaseAddress) + (RegOffset))`,
a `u32`. -/
def AXI_1WIRE_HOST_mReadReg {σ : Type} (bus : Bus σ) (baseaddr off : Nat)
    (w : World σ) : Nat × World σ :=
  ((bus.Xil_In32 (regAddr baseaddr off) w.dev).1 % 2 ^ 32,
   { dev := (bus.Xil_In32 (regAddr baseaddr off) w.dev).2
     log := w.log ++ [Access.load (regAddr baseaddr off)
              ((bus.Xil_In32 (regAddr baseaddr off) w.dev).1 % 2 ^ 32)] })

/-! ## `axi_1wire_host.c` -/

/-- The busy-wait loop `while((AXI_1WIRE_HOST_mReadReg(baseaddr, STAT) & mask) == 0){}`, with
at most `fuel` loads of STAT. -/
def whileStatClear {σ : Type} (bus : Bus σ) (baseaddr mask : Nat) :
    Nat → World σ → Option (World σ)
  | 0, _ => none
  | fuel + 1, w =>
    if (AXI_1WIRE_HOST_mReadReg bus baseaddr AXI_1WIRE_HOST_STAT_REG_OFFSET w).1 &&& mask = 0 then
      whileStatClear bus baseaddr mask fuel
        (AXI_1WIRE_HOST_mReadReg bus baseaddr AXI_1WIRE_HOST_STAT_REG_OFFSET w).2
    else
      some (AXI_1WIRE_HOST_mReadReg bus baseaddr AXI_1WIRE_HOST_STAT_REG_OFFSET w).2

/-- `void AXI_1WIRE_HOST_Reset(u32 baseaddr)`. -/
def AXI_1WIRE_HOST_Reset {σ : Type} (bus : Bus σ) (baseaddr : Nat) (w : World σ) : World σ :=
  AXI_1WIRE_HOST_mWriteReg bus baseaddr AXI_1WIRE_HOST_CTRL_REG_OFFSET 0x80000000 w

/-- `u8 AXI_1WIRE_HOST_TouchBit(u32 baseaddr, u8 bit)`. -/
def AXI_1WIRE_HOST_TouchBit {σ : Type} (bus : Bus σ) (baseaddr bit fuel : Nat)
    (w : World σ) : Option (Nat × World σ) :=
  match whileStatClear bus baseaddr 0x00000010 fuel w with
  | none => none
  | some w1 =>
    let w2 :=
      if bit ≠ 0 then
        AXI_1WIRE_HOST_mWriteReg bus baseaddr AXI_1WIRE_HOST_INSTR_REG_OFFSET
          AXI_1WIRE_HOST_READBIT w1
      else
        AXI_1WIRE_HOST_mWriteReg bus baseaddr AXI_1WIRE_HOST_INSTR_REG_OFFSET
          (AXI_1WIRE_HOST_WRITEBIT + (bit &&& 0x01)) w1
    let w3 := AXI_1WIRE_HOST_mWriteReg bus baseaddr AXI_1WIRE_HOST_CTRL_REG_OFFSET 0x00000001 w2
    match whileStatClear bus baseaddr 0x00000001 fuel w3 with
    | none => none
    | some w4 =>
      let r : Nat × World σ :=
        if bit ≠ 0 then
          (((AXI_1WIRE_HOST_mReadReg bus baseaddr AXI_1WIRE_HOST_RXDATA_REG_OFFSET w4).1
              &&& 0x00000001) % 256,
           (AXI_1WIRE_HOST_mReadReg bus baseaddr AXI_1WIRE_HOST_RXDATA_REG_OFFSET w4).2)
        else (0, w4)
      some (r.1, AXI_1WIRE_HOST_mWriteReg bus baseaddr AXI_1WIRE_HOST_CTRL_REG_OFFSET
        0x00000000 r.2)

/-- `u8 AXI_1WIRE_HOST_ReadByte(u32 baseaddr)`. -/
def AXI_1WIRE_HOST_ReadByte {σ : Type} (bus : Bus σ) (baseaddr fuel : Nat)
    (w : World σ) : Option (Nat × World σ) :=
  match whileStatClear bus baseaddr 0x00000010 fuel w with
  | none => none
  | some w1 =>
    let w2 := AXI_1WIRE_HOST_mWriteReg bus baseaddr AXI_1WIRE_HOST_INSTR_REG_OFFSET
      AXI_1WIRE_HOST_READBYTE w1
    let w3 := AXI_1WIRE_HOST_mWriteReg bus baseaddr AXI_1WIRE_HOST_CTRL_REG_OFFSET 0x00000001 w2
    match whileStatClear bus baseaddr 0x00000001 fuel w3 with
    | none => none
    | some w4 =>
      some (((AXI_1WIRE_HOST_mReadReg bus baseaddr AXI_1WIRE_HOST_RXDATA_REG_OFFSET w4).1
              &&& 0x000000FF) % 256,
        AXI_1WIRE_HOST_mWriteReg bus baseaddr AXI_1WIRE_HOST_CTRL_REG_OFFSET 0x00000000
          (AXI_1WIRE_HOST_mReadReg bus baseaddr AXI_1WIRE_HOST_RXDATA_REG_OFFSET w4).2)

/-- `void AXI_1WIRE_HOST_WriteByte(u32 baseaddr, u8 byte)`. -/
def AXI_1WIRE_HOST_WriteByte {σ : Type} (bus : Bus σ) (baseaddr byte fuel : Nat)
    (w : World σ) : Option (World σ) :=
  match whileStatClear bus baseaddr 0x00000010 fuel w with
  | none => none
  | some w1 =>
    let w2 := AXI_1WIRE_HOST_mWriteReg bus baseaddr AXI_1WIRE_HOST_INSTR_REG_OFFSET
      (AXI_1WIRE_HOST_WRITEBYTE + (byte &&& 0xFF)) w1
    let w3 := AXI_1WIRE_HOST_mWriteReg bus baseaddr AXI_1WIRE_HOST_CTRL_REG_OFFSET 0x00000001 w2
    match whileStatClear bus baseaddr 0x00000001 fuel w3 with
    | none => none
    | some w4 =>
      some (AXI_1WIRE_HOST_mWriteReg bus baseaddr AXI_1WIRE_HOST_CTRL_REG_OFFSET 0x00000000 w4)

/-- `u8 AXI_1WIRE_HOST_ResetBus(u32 baseaddr)`. -/
def AXI_1WIRE_HOST_ResetBus {σ : Type} (bus : Bus σ) (baseaddr fuel : Nat)
    (w : World σ) : Option (Nat × World σ) :=
  let w0 := AXI_1WIRE_HOST_mWriteReg bus baseaddr AXI_1WIRE_HOST_CTRL_REG_OFFSET
    AXI_1WIRE_HOST_RESET w
  match whileStatClear bus baseaddr 0x00000010 fuel w0 with
  | none => none
  | some w1 =>
    let w2 := AXI_1WIRE_HOST_mWriteReg bus baseaddr AXI_1WIRE_HOST_INSTR_REG_OFFSET
      AXI_1WIRE_HOST_INITPRES w1
    let w3 := AXI_1WIRE_HOST_mWriteReg bus baseaddr AXI_1WIRE_HOST_CTRL_REG_OFFSET 0x00000001 w2
    match whileStatClear bus baseaddr 0x00000001 fuel w3 with
    | none => none
    | some w4 =>
      let val : Nat :=
        if (AXI_1WIRE_HOST_mReadReg bus baseaddr AXI_1WIRE_HOST_STAT_REG_OFFSET w4).1
            &&& 0x80000000 ≠ 0 then 1 else 0
      some (val, AXI_1WIRE_HOST_mWriteReg bus baseaddr AXI_1WIRE_HOST_CTRL_REG_OFFSET 0x00000000
        (AXI_1WIRE_HOST_mReadReg bus baseaddr AXI_1WIRE_HOST_STAT_REG_OFFSET w4).2)

/-- `u8 AXI_1WIRE_HOST_GPIO_Read(u32 baseaddr)`. -/
def AXI_1WIRE_HOST_GPIO_Read {σ : Type} (bus : Bus σ) (baseaddr : Nat)
    (w : World σ) : Nat × World σ :=
  let w1 := AXI_1WIRE_HOST_mWriteReg bus baseaddr AXI_1WIRE_HOST_INSTR_REG_OFFSET 0x80800000 w
  (((AXI_1WIRE_HOST_mReadReg bus baseaddr AXI_1WIRE_HOST_GPIODATA_REG_OFFSET w1).1
      &&& 0x00000001) % 256,
   (AXI_1WIRE_HOST_mReadReg bus baseaddr AXI_1WIRE_HOST_GPIODATA_REG_OFFSET w1).2)

/-- `void AXI_1WIRE_HOST_GPIO_Write(u32 baseaddr, u8 bit)`. -/
def AXI_1WIRE_HOST_GPIO_Write {σ : Type} (bus : Bus σ) (baseaddr bit : Nat)
    (w : World σ) : World σ :=
  AXI_1WIRE_HOST_mWriteReg bus baseaddr AXI_1WIRE_HOST_INSTR_REG_OFFSET
    (if bit &&& 0x1 ≠ 0 then 0x80010000 else 0x80000000) w

/-! ## `axi_1wire_host_selftest.c` -/

/-- Modelled from the spec: the status type `XStatus` with `XST_SUCCESS` and `XST_FAILURE` comes
from the platform header `xstatus.h`, which is not among the sources; the spec only says that the
failure outcome is distinct from success. -/
inductive XStatus where
  | XST_SUCCESS
  | XST_FAILURE
  deriving DecidableEq, Repr

/-- `XStatus AXI_1WIRE_HOST_SelfTest(u32 baseaddr)`. The `xil_printf` calls produce diagnostic
text only and touch no register; they are left out. -/
def AXI_1WIRE_HOST_SelfTest {σ : Type} (bus : Bus σ) (baseaddr : Nat)
    (w : World σ) : XStatus × World σ :=
  let r1 := AXI_1WIRE_HOST_mReadReg bus baseaddr AXI_1WIRE_HOST_IPID_REG_OFFSET w
  let ip_id := r1.1
  let r2 := AXI_1WIRE_HOST_mReadReg bus baseaddr AXI_1WIRE_HOST_IPVER_REG_OFFSET r1.2
  let ip_ver := r2.1
  if ip_id ≠ 0x10EE4453 then (XStatus.XST_FAILURE, r2.2)
  else if (ip_ver >>> 24) &&& 0xFF ≠ 0x76 then (XStatus.XST_FAILURE, r2.2)
  else (XStatus.XST_SUCCESS, r2.2)

/-! ## Describing a run: successive STAT loads -/

/-- The world after `n` successive loads of STAT. -/
def statLoads {σ : Type} (bus : Bus σ) (baseaddr : Nat) : Nat → World σ → World σ
  | 0, w => w
  | n + 1, w =>
    statLoads bus baseaddr n
      (AXI_1WIRE_HOST_mReadReg bus baseaddr AXI_1WIRE_HOST_STAT_REG_OFFSET w).2

/-- The value that load number `k` (counted from 0) of a run of successive STAT loads returns,
starting in world `w`. -/
def statVal {σ : Type} (bus : Bus σ) (baseaddr : Nat) (w : World σ) (k : Nat) : Nat :=
  (AXI_1WIRE_HOST_mReadReg bus baseaddr AXI_1WIRE_HOST_STAT_REG_OFFSET
    (statLoads bus baseaddr k w)).1

/-- Polling STAT from world `w`, a bit of `mask` is seen first at load number `k`. -/
def FirstSeen {σ : Type} (bus : Bus σ) (baseaddr mask : Nat) (w : World σ) (k : Nat) : Prop :=
  (∀ i, i < k → statVal bus baseaddr w i &&& mask = 0) ∧ statVal bus baseaddr w k &&& mask ≠ 0

instance {σ : Type} (bus : Bus σ) (baseaddr mask : Nat) (w : World σ) (k : Nat) :
    Decidable (FirstSeen bus baseaddr mask w k) := by
  unfold FirstSeen; infer_instance

/-- The world in which the DONE loop starts: READY was seen at load number `i` of STAT, then
`opcode` was stored to INSTR and 1 (GO) to CTRL. -/
def armed {σ : Type} (bus : Bus σ) (baseaddr opcode i : Nat) (w : World σ) : World σ :=
  AXI_1WIRE_HOST_mWriteReg bus baseaddr AXI_1WIRE_HOST_CTRL_REG_OFFSET 0x00000001
    (AXI_1WIRE_HOST_mWriteReg bus baseaddr AXI_1WIRE_HOST_INSTR_REG_OFFSET opcode
      (statLoads bus baseaddr (i + 1) w))

/-- The values returned by the first `n` of a run of successive STAT loads from world `w`. -/
def statVals {σ : Type} (bus : Bus σ) (baseaddr : Nat) (w : World σ) (n : Nat) : List Nat :=
  (List.range n).map (statVal bus baseaddr w)

/-- The log entries of successive loads of STAT that return the values `vs`. -/
def statTrace (baseaddr : Nat) (vs : List Nat) : List Access :=
  vs.map (Access.load (regAddr baseaddr AXI_1WIRE_HOST_STAT_REG_OFFSET))

/-- The stores of a log, in order, as pairs of address and value. -/
def stores : List Access → List (Nat × Nat)
  | [] => []
  | Access.store a v :: rest => (a, v) :: stores rest
  | Access.load _ _ :: rest => stores rest

/-- The values stored to address `a` in a log, in order. -/
def storesTo (a : Nat) : List Access → List Nat
  | [] => []
  | Access.store a' v :: rest => if a' = a then v :: storesTo a rest else storesTo a rest
  | Access.load _ _ :: rest => storesTo a rest

/-- The addresses a log touches, loads and stores alike. -/
def touched : List Access → List Nat
  | [] => []
  | Access.store a _ :: rest => a :: touched rest
  | Access.load a _ :: rest => a :: touched rest

/-- The number of loads from address `a` in a log. -/
def loadCount (a : Nat) : List Access → Nat
  | [] => 0
  | Access.load a' _ :: rest => (if a' = a then 1 else 0) + loadCount a rest
  | Access.store _ _ :: rest => loadCount a rest

/-- The value of the last store to address `a` in a log, if there is one. -/
def lastStore (a : Nat) : List Access → Option Nat
  | [] => none
  | Access.store a' v :: rest =>
    match lastStore a rest with
    | some x => some x
    | none => if a' = a then some v else none
  | Access.load _ _ :: rest => lastStore a rest

/-- Every load of STAT (address `stat`) in the log whose READY bit (bit 4) is clear is followed,
if by anything, by another load of STAT. -/
def notReadyOnlyRepolls (stat : Nat) : List Access → Bool
  | [] => true
  | [_] => true
  | Access.load a v :: Access.load a2 v2 :: rest =>
    (if a = stat ∧ v &&& 0x10 = 0 then decide (a2 = stat) else true)
      && notReadyOnlyRepolls stat (Access.load a2 v2 :: rest)
  | Access.load a v :: Access.store a2 v2 :: rest =>
    (if a = stat ∧ v &&& 0x10 = 0 then false else true)
      && notReadyOnlyRepolls stat (Access.store a2 v2 :: rest)
  | Access.store _ _ :: x :: rest => notReadyOnlyRepolls stat (x :: rest)

/-! ## The four sequenced operations as one family -/

/-- The four operations that go through the ready/go/done handshake. -/
inductive Op where
  | touchBit (bit : Nat)
  | readByte
  | writeByte (byte : Nat)
  | resetBus
  deriving DecidableEq, Repr

/-- The world an operation leaves behind when it returns within `fuel` polls per loop. -/
def Op.exec {σ : Type} (bus : Bus σ) (baseaddr fuel : Nat) (w : World σ) :
    Op → Option (World σ)
  | Op.touchBit bit => (AXI_1WIRE_HOST_TouchBit bus baseaddr bit fuel w).map Prod.snd
  | Op.readByte => (AXI_1WIRE_HOST_ReadByte bus baseaddr fuel w).map Prod.snd
  | Op.writeByte byte => AXI_1WIRE_HOST_WriteByte bus baseaddr byte fuel w
  | Op.resetBus => (AXI_1WIRE_HOST_ResetBus bus baseaddr fuel w).map Prod.snd

/-- The opcode an operation stores to INSTR, as its source computes it. -/
def Op.opcode : Op → Nat
  | Op.touchBit bit =>
    if bit ≠ 0 then AXI_1WIRE_HOST_READBIT else AXI_1WIRE_HOST_WRITEBIT + (bit &&& 0x01)
  | Op.readByte => AXI_1WIRE_HOST_READBYTE
  | Op.writeByte byte => AXI_1WIRE_HOST_WRITEBYTE + (byte &&& 0xFF)
  | Op.resetBus => AXI_1WIRE_HOST_INITPRES

/-- The world in which an operation starts to poll READY: ResetBus first stores RESET to CTRL,
the other three poll at once. -/
def Op.enter {σ : Type} (bus : Bus σ) (baseaddr : Nat) (w : World σ) : Op → World σ
  | Op.resetBus =>
    AXI_1WIRE_HOST_mWriteReg bus baseaddr AXI_1WIRE_HOST_CTRL_REG_OFFSET AXI_1WIRE_HOST_RESET w
  | _ => w

/-! ## Simulated register blocks -/

/-- A simulated register block driven by a stream: load number `n` of STAT returns `stat n`,
whatever was stored in between; a load of any other address `a` returns `other a`; stores are
accepted and ignored. The state counts the STAT loads made so far. -/
def streamBus (baseaddr : Nat) (stat : Nat → Nat) (other : Nat → Nat) : Bus Nat where
  Xil_In32 a n :=
    if a = regAddr baseaddr AXI_1WIRE_HOST_STAT_REG_OFFSET then (stat n, n + 1) else (other a, n)
  Xil_Out32 _ _ n := n

/-- In the stream `stat`, counting from position `start`, bit `m` is set first at offset `i`. -/
def FirstBit (stat : Nat → Nat) (m start i : Nat) : Prop :=
  (∀ k, k < i → (stat (start + k)).testBit m = false) ∧ (stat (start + i)).testBit m = true

/-- A simulated register block whose GPIODATA echoes the bit of the last GPIO write instruction
stored to INSTR: storing `0x80010000` latches 1, storing `0x80000000` latches 0, any other store
leaves the latch alone, and every load returns the latch. -/
def gpioEchoBus (baseaddr : Nat) : Bus Nat where
  Xil_In32 _ latch := (latch, latch)
  Xil_Out32 a v latch :=
    if a = regAddr baseaddr AXI_1WIRE_HOST_INSTR_REG_OFFSET then
      if v = 0x80010000 then 1 else if v = 0x80000000 then 0 else latch
    else latch

/-- The device `bus` echoes GPIO writes: `latch` observes a bit of the device state that a store
of `0x80010000` to INSTR sets, a store of `0x80000000` to INSTR clears, a store of `0x80800000`
to INSTR keeps, and that bit 0 of a GPIODATA load returns. -/
def EchoesGpioWrite {σ : Type} (bus : Bus σ) (baseaddr : Nat) (latch : σ → Nat) : Prop :=
  (∀ d, latch (bus.Xil_Out32 (regAddr baseaddr AXI_1WIRE_HOST_INSTR_REG_OFFSET) 0x80010000 d) = 1) ∧
  (∀ d, latch (bus.Xil_Out32 (regAddr baseaddr AXI_1WIRE_HOST_INSTR_REG_OFFSET) 0x80000000 d) = 0) ∧
  (∀ d, latch (bus.Xil_Out32 (regAddr baseaddr AXI_1WIRE_HOST_INSTR_REG_OFFSET) 0x80800000 d)
    = latch d) ∧
  (∀ d, (bus.Xil_In32 (regAddr baseaddr AXI_1WIRE_HOST_GPIODATA_REG_OFFSET) d).1 &&& 1 = latch d)

/-- A simulated register block made of plain registers: a load of address `a` returns `regs a`
and changes nothing, a store to `a` replaces `regs a`. -/
def registerFile : Bus (Nat → Nat) where
  Xil_In32 a regs := (regs a, regs)
  Xil_Out32 a v regs := fun x => if x = a then v else regs x

/-- A simulated register block for worked examples, at base address `0x40000000`: successive
loads of STAT return `0`, `0x10` (READY), `0`, `0x01` (DONE), `0x80000000` (no presence) and then
`0`; every other register reads `0x123`. -/
def demoBus : Bus Nat :=
  streamBus 0x40000000 (fun n => [0, 0x10, 0, 0x01, 0x80000000].getD n 0) (fun _ => 0x123)

/-- A register file for worked examples of the self-test, at base address `0x40000000`: IPID
holds `0x10EE4453`, IPVER holds `0x76000102`, every other register holds 0. -/
def demoRegs : Nat → Nat := fun a =>
  if a = 0x4000001C then 0x10EE4453 else if a = 0x40000018 then 0x76000102 else 0

/-- The empty log over a device state. -/
def World.start {σ : Type} (d : σ) : World σ := { dev := d, log := [] }

/-! ## Register access: basic facts -/

theorem mWriteReg_log {σ : Type} (bus : Bus σ) (b off d : Nat) (w : World σ) :
    (AXI_1WIRE_HOST_mWriteReg bus b off d w).log
      = w.log ++ [Access.store (regAddr b off) (d % 2 ^ 32)] := rfl

theorem mReadReg_log {σ : Type} (bus : Bus σ) (b off : Nat) (w : World σ) :
    (AXI_1WIRE_HOST_mReadReg bus b off w).2.log
      = w.log ++ [Access.load (regAddr b off) (AXI_1WIRE_HOST_mReadReg bus b off w).1] := rfl

/-! ## The polling loop -/

theorem statVal_zero {σ : Type} (bus : Bus σ) (b : Nat) (w : World σ) :
    statVal bus b w 0
      = (AXI_1WIRE_HOST_mReadReg bus b AXI_1WIRE_HOST_STAT_REG_OFFSET w).1 := rfl

theorem statLoads_succ {σ : Type} (bus : Bus σ) (b : Nat) (n : Nat) (w : World σ) :
    statLoads bus b (n + 1) w
      = (AXI_1WIRE_HOST_mReadReg bus b AXI_1WIRE_HOST_STAT_REG_OFFSET (statLoads bus b n w)).2 := by
  induction n generalizing w with
  | zero => rfl
  | succ n ih =>
    show statLoads bus b (n + 1) _ = _
    rw [ih]
    rfl

theorem statLoads_log {σ : Type} (bus : Bus σ) (b : Nat) (n : Nat) (w : World σ) :
    (statLoads bus b n w).log
      = w.log ++ statTrace b ((List.range n).map (statVal bus b w)) := by
  induction n with
  | zero => simp [statLoads, statTrace]
  | succ n ih =>
    rw [statLoads_succ, mReadReg_log, ih, List.range_succ]
    simp [statTrace, statVal]

theorem firstSeen_zero {σ : Type} (bus : Bus σ) (b mask : Nat) (w : World σ) :
    FirstSeen bus b mask w 0
      ↔ (AXI_1WIRE_HOST_mReadReg bus b AXI_1WIRE_HOST_STAT_REG_OFFSET w).1 &&& mask ≠ 0 := by
  simp [FirstSeen, statVal_zero]

theorem firstSeen_succ {σ : Type} (bus : Bus σ) (b mask : Nat) (w : World σ) (k : Nat) :
    FirstSeen bus b mask w (k + 1)
      ↔ (AXI_1WIRE_HOST_mReadReg bus b AXI_1WIRE_HOST_STAT_REG_OFFSET w).1 &&& mask = 0
        ∧ FirstSeen bus b mask
            (AXI_1WIRE_HOST_mReadReg bus b AXI_1WIRE_HOST_STAT_REG_OFFSET w).2 k := by
  constructor
  · rintro ⟨h1, h2⟩
    exact ⟨h1 0 (by omega), fun i hi => h1 (i + 1) (by omega), h2⟩
  · rintro ⟨h0, h1, h2⟩
    refine ⟨fun i hi => ?_, h2⟩
    cases i with
    | zero => exact h0
    | succ i => exact h1 i (by omega)

/-- The loop returns exactly when the awaited bit shows up within `fuel` loads of STAT, and then
it has made the loads up to and including the first one that shows it. -/
theorem whileStatClear_iff {σ : Type} (bus : Bus σ) (b mask fuel : Nat) (w w' : World σ) :
    whileStatClear bus b mask fuel w = some w'
      ↔ ∃ k, k < fuel ∧ FirstSeen bus b mask w k ∧ w' = statLoads bus b (k + 1) w := by
  induction fuel generalizing w with
  | zero => simp [whileStatClear]
  | succ fuel ih =>
    unfold whileStatClear
    split
    · next h =>
      rw [ih]
      constructor
      · rintro ⟨k, hk, hf, hw⟩
        exact ⟨k + 1, by omega, (firstSeen_succ bus b mask w k).2 ⟨h, hf⟩, hw⟩
      · rintro ⟨k, hk, hf, hw⟩
        cases k with
        | zero => exact absurd h ((firstSeen_zero bus b mask w).1 hf)
        | succ k =>
          exact ⟨k, by omega, ((firstSeen_succ bus b mask w k).1 hf).2, hw⟩
    · next h =>
      constructor
      · intro hw
        refine ⟨0, by omega, (firstSeen_zero bus b mask w).2 h, ?_⟩
        exact (Option.some.inj hw).symm
      · rintro ⟨k, hk, hf, hw⟩
        cases k with
        | zero => rw [hw]; rfl
        | succ k => exact absurd ((firstSeen_succ bus b mask w k).1 hf).1 h

/-! ## The ready/go/done handshake -/

/-- The common skeleton of the four sequenced operations: it returns exactly when READY is seen
within `fuel` loads of STAT and, once GO is asserted, DONE is seen within `fuel` further loads. -/
theorem handshake_iff {σ α : Type} (bus : Bus σ) (b op fuel : Nat) (w : World σ)
    (k : World σ → α) (r : α) :
    (whileStatClear bus b 0x00000010 fuel w).bind (fun w1 =>
        (whileStatClear bus b 0x00000001 fuel
          (AXI_1WIRE_HOST_mWriteReg bus b AXI_1WIRE_HOST_CTRL_REG_OFFSET 0x00000001
            (AXI_1WIRE_HOST_mWriteReg bus b AXI_1WIRE_HOST_INSTR_REG_OFFSET op w1))).map k)
      = some r
    ↔ ∃ i j, i < fuel ∧ j < fuel ∧ FirstSeen bus b 0x10 w i
        ∧ FirstSeen bus b 0x01 (armed bus b op i w) j
        ∧ r = k (statLoads bus b (j + 1) (armed bus b op i w)) := by
  simp only [Option.bind_eq_some, Option.map_eq_some', whileStatClear_iff]
  constructor
  · rintro ⟨w1, ⟨i, hi, hfi, rfl⟩, w4, ⟨j, hj, hfj, rfl⟩, rfl⟩
    exact ⟨i, j, hi, hj, hfi, hfj, rfl⟩
  · rintro ⟨i, j, hi, hj, hfi, hfj, rfl⟩
    exact ⟨_, ⟨i, hi, hfi, rfl⟩, _, ⟨j, hj, hfj, rfl⟩, rfl⟩

/-- The log when the DONE loop has returned. -/
theorem handshake_log {σ : Type} (bus : Bus σ) (b op i j : Nat) (w : World σ) :
    (statLoads bus b (j + 1) (armed bus b op i w)).log
      = w.log ++ statTrace b ((List.range i).map (statVal bus b w) ++ [statVal bus b w i])
          ++ [Access.store (INSTR_REG b) (op % 2 ^ 32), Access.store (CTRL_REG b) 1]
          ++ statTrace b ((List.range j).map (statVal bus b (armed bus b op i w))
              ++ [statVal bus b (armed bus b op i w) j]) := by
  rw [statLoads_log, armed, mWriteReg_log, mWriteReg_log, statLoads_log, List.range_succ,
    List.range_succ]
  simp

theorem ReadByte_eq {σ : Type} (bus : Bus σ) (b fuel : Nat) (w : World σ) :
    AXI_1WIRE_HOST_ReadByte bus b fuel w
      = (whileStatClear bus b 0x00000010 fuel w).bind (fun w1 =>
        (whileStatClear bus b 0x00000001 fuel
          (AXI_1WIRE_HOST_mWriteReg bus b AXI_1WIRE_HOST_CTRL_REG_OFFSET 0x00000001
            (AXI_1WIRE_HOST_mWriteReg bus b AXI_1WIRE_HOST_INSTR_REG_OFFSET
              AXI_1WIRE_HOST_READBYTE w1))).map (fun w4 =>
          (((AXI_1WIRE_HOST_mReadReg bus b AXI_1WIRE_HOST_RXDATA_REG_OFFSET w4).1
              &&& 0x000000FF) % 256,
            AXI_1WIRE_HOST_mWriteReg bus b AXI_1WIRE_HOST_CTRL_REG_OFFSET 0x00000000
              (AXI_1WIRE_HOST_mReadReg bus b AXI_1WIRE_HOST_RXDATA_REG_OFFSET w4).2))) := by
  unfold AXI_1WIRE_HOST_ReadByte
  cases whileStatClear bus b 0x00000010 fuel w with
  | none => rfl
  | some w1 =>
    simp only [Option.some_bind]
    cases whileStatClear bus b 0x00000001 fuel _ <;> rfl

theorem WriteByte_eq {σ : Type} (bus : Bus σ) (b byte fuel : Nat) (w : World σ) :
    AXI_1WIRE_HOST_WriteByte bus b byte fuel w
      = (whileStatClear bus b 0x00000010 fuel w).bind (fun w1 =>
        (whileStatClear bus b 0x00000001 fuel
          (AXI_1WIRE_HOST_mWriteReg bus b AXI_1WIRE_HOST_CTRL_REG_OFFSET 0x00000001
            (AXI_1WIRE_HOST_mWriteReg bus b AXI_1WIRE_HOST_INSTR_REG_OFFSET
              (AXI_1WIRE_HOST_WRITEBYTE + (byte &&& 0xFF)) w1))).map (fun w4 =>
          AXI_1WIRE_HOST_mWriteReg bus b AXI_1WIRE_HOST_CTRL_REG_OFFSET 0x00000000 w4)) := by
  unfold AXI_1WIRE_HOST_WriteByte
  cases whileStatClear bus b 0x00000010 fuel w with
  | none => rfl
  | some w1 =>
    simp only [Option.some_bind]
    cases whileStatClear bus b 0x00000001 fuel _ <;> rfl

theorem TouchBit_eq {σ : Type} (bus : Bus σ) (b bit fuel : Nat) (w : World σ) :
    AXI_1WIRE_HOST_TouchBit bus b bit fuel w
      = (whileStatClear bus b 0x00000010 fuel w).bind (fun w1 =>
        (whileStatClear bus b 0x00000001 fuel
          (AXI_1WIRE_HOST_mWriteReg bus b AXI_1WIRE_HOST_CTRL_REG_OFFSET 0x00000001
            (AXI_1WIRE_HOST_mWriteReg bus b AXI_1WIRE_HOST_INSTR_REG_OFFSET
              (if bit ≠ 0 then AXI_1WIRE_HOST_READBIT
                else AXI_1WIRE_HOST_WRITEBIT + (bit &&& 0x01)) w1))).map (fun w4 =>
          if bit ≠ 0 then
            (((AXI_1WIRE_HOST_mReadReg bus b AXI_1WIRE_HOST_RXDATA_REG_OFFSET w4).1
                &&& 0x00000001) % 256,
              AXI_1WIRE_HOST_mWriteReg bus b AXI_1WIRE_HOST_CTRL_REG_OFFSET 0x00000000
                (AXI_1WIRE_HOST_mReadReg bus b AXI_1WIRE_HOST_RXDATA_REG_OFFSET w4).2)
          else
            (0, AXI_1WIRE_HOST_mWriteReg bus b AXI_1WIRE_HOST_CTRL_REG_OFFSET 0x00000000 w4))) := by
  unfold AXI_1WIRE_HOST_TouchBit
  cases whileStatClear bus b 0x00000010 fuel w with
  | none => rfl
  | some w1 =>
    simp only [Option.some_bind]
    by_cases hb : bit ≠ 0
    · simp only [if_pos hb]
      cases whileStatClear bus b 0x00000001 fuel _ <;> rfl
    · simp only [if_neg hb]
      cases whileStatClear bus b 0x00000001 fuel _ <;> rfl

theorem ResetBus_eq {σ : Type} (bus : Bus σ) (b fuel : Nat) (w : World σ) :
    AXI_1WIRE_HOST_ResetBus bus b fuel w
      = (whileStatClear bus b 0x00000010 fuel
          (AXI_1WIRE_HOST_mWriteReg bus b AXI_1WIRE_HOST_CTRL_REG_OFFSET
            AXI_1WIRE_HOST_RESET w)).bind (fun w1 =>
        (whileStatClear bus b 0x00000001 fuel
          (AXI_1WIRE_HOST_mWriteReg bus b AXI_1WIRE_HOST_CTRL_REG_OFFSET 0x00000001
            (AXI_1WIRE_HOST_mWriteReg bus b AXI_1WIRE_HOST_INSTR_REG_OFFSET
              AXI_1WIRE_HOST_INITPRES w1))).map (fun w4 =>
          ((if (AXI_1WIRE_HOST_mReadReg bus b AXI_1WIRE_HOST_STAT_REG_OFFSET w4).1
                &&& 0x80000000 ≠ 0 then 1 else 0),
            AXI_1WIRE_HOST_mWriteReg bus b AXI_1WIRE_HOST_CTRL_REG_OFFSET 0x00000000
              (AXI_1WIRE_HOST_mReadReg bus b AXI_1WIRE_HOST_STAT_REG_OFFSET w4).2))) := by
  unfold AXI_1WIRE_HOST_ResetBus
  simp only
  cases whileStatClear bus b 0x00000010 fuel _ with
  | none => rfl
  | some w1 =>
    simp only [Option.some_bind]
    cases whileStatClear bus b 0x00000001 fuel _ <;> rfl

/-! ## Bit arithmetic -/

theorem and_two_pow_eq_zero_iff (v k : Nat) : v &&& 2 ^ k = 0 ↔ v.testBit k = false := by
  constructor
  · intro h
    have := congrArg (fun x => x.testBit k) h
    simpa [Nat.testBit_and, Nat.testBit_two_pow_self] using this
  · intro h
    apply Nat.eq_of_testBit_eq
    intro i
    by_cases hik : k = i
    · subst hik; simp [Nat.testBit_and, h]
    · simp [Nat.testBit_and, Nat.testBit_two_pow, hik]

theorem and_two_pow_ne_zero_iff (v k : Nat) : v &&& 2 ^ k ≠ 0 ↔ v.testBit k = true := by
  rw [Ne, and_two_pow_eq_zero_iff]
  simp

theorem and_one_eq_ite (r : Nat) : r &&& 1 = if r.testBit 0 then 1 else 0 := by
  rw [Nat.and_one_is_mod, Nat.testBit_zero]
  by_cases h : r % 2 = 1
  · simp [h]
  · have h0 : r % 2 = 0 := by omega
    simp [h0]

theorem and_ff_eq_mod (r : Nat) : r &&& 0xFF = r % 256 := by
  have := Nat.and_pow_two_sub_one_eq_mod r 8
  simpa using this

theorem byte_add_eq_or (b : Nat) (hb : b < 256) : 0x0F00 + (b &&& 0xFF) = 0x0F00 ||| b := by
  have h1 : b &&& 0xFF = b := by rw [and_ff_eq_mod]; omega
  rw [h1]
  exact Nat.mul_add_lt_is_or (i := 8) (by simpa using hb) 15

/-! ## Logs -/

theorem storesTo_append (a : Nat) (l1 l2 : List Access) :
    storesTo a (l1 ++ l2) = storesTo a l1 ++ storesTo a l2 := by
  induction l1 with
  | nil => rfl
  | cons x l1 ih =>
    cases x with
    | load a' v => simpa [storesTo] using ih
    | store a' v =>
      by_cases h : a' = a <;> simp [storesTo, h, ih]

theorem stores_append (l1 l2 : List Access) : stores (l1 ++ l2) = stores l1 ++ stores l2 := by
  induction l1 with
  | nil => rfl
  | cons x l1 ih => cases x <;> simp [stores, ih]

theorem loadCount_append (a : Nat) (l1 l2 : List Access) :
    loadCount a (l1 ++ l2) = loadCount a l1 + loadCount a l2 := by
  induction l1 with
  | nil => simp [loadCount]
  | cons x l1 ih =>
    cases x with
    | load a' v => simp [loadCount, ih]; omega
    | store a' v => simpa [loadCount] using ih

theorem storesTo_statTrace (a b : Nat) (vs : List Nat) : storesTo a (statTrace b vs) = [] := by
  induction vs with
  | nil => rfl
  | cons v vs ih => simpa [statTrace, storesTo] using ih

theorem stores_statTrace (b : Nat) (vs : List Nat) : stores (statTrace b vs) = [] := by
  induction vs with
  | nil => rfl
  | cons v vs ih => simpa [statTrace, stores] using ih

theorem loadCount_statTrace_self (b : Nat) (vs : List Nat) :
    loadCount (STAT_REG b) (statTrace b vs) = vs.length := by
  induction vs with
  | nil => rfl
  | cons v vs ih =>
    have : loadCount (STAT_REG b) (statTrace b vs) = vs.length := ih
    simp [statTrace, loadCount] at this ⊢
    omega

theorem loadCount_statTrace_other (a b : Nat) (h : STAT_REG b ≠ a) (vs : List Nat) :
    loadCount a (statTrace b vs) = 0 := by
  induction vs with
  | nil => rfl
  | cons v vs ih =>
    have : loadCount a (statTrace b vs) = 0 := ih
    simp [statTrace, loadCount] at this ⊢
    exact ⟨h, this⟩

/-! ## Distinct registers have distinct addresses -/

theorem instr_ne_ctrl (b : Nat) : INSTR_REG b ≠ CTRL_REG b := by
  simp only [INSTR_REG, CTRL_REG, regAddr, AXI_1WIRE_HOST_INSTR_REG_OFFSET,
    AXI_1WIRE_HOST_CTRL_REG_OFFSET]
  omega

theorem stat_ne_rxdata (b : Nat) : STAT_REG b ≠ RXDATA_REG b := by
  simp only [STAT_REG, RXDATA_REG, regAddr, AXI_1WIRE_HOST_STAT_REG_OFFSET,
    AXI_1WIRE_HOST_RXDATA_REG_OFFSET]
  omega

/-! ## Read-byte -/

/-- C2: on every device where READY (STAT bit 4) is first seen at STAT load `i` and, once GO
is asserted, DONE (STAT bit 0) at load `j`, `AXI_1WIRE_HOST_ReadByte` returns as soon as the
fuel covers these polls; it stores READBYTE = 0x0D00 to INSTR, loads RXDATA once right after the
DONE poll, and returns exactly the low 8 bits `r &&& 0xFF = r % 256` of the 32-bit value `r`
that RXDATA holds at that moment. For `r = 0x123` the result is `0x23`. -/
theorem ReadByte_returns_low_byte {σ : Type} (bus : Bus σ) (baseaddr fuel i j : Nat)
    (w : World σ)
    (hready : FirstSeen bus baseaddr 0x10 w i)
    (hdone : FirstSeen bus baseaddr 0x01 (armed bus baseaddr AXI_1WIRE_HOST_READBYTE i w) j)
    (hi : i < fuel) (hj : j < fuel) :
    ∃ (r : Nat) (w' : World σ) (rs ds : List Nat),
      r = (bus.Xil_In32 (RXDATA_REG baseaddr)
            (statLoads bus baseaddr (j + 1)
              (armed bus baseaddr AXI_1WIRE_HOST_READBYTE i w)).dev).1 % 2 ^ 32
      ∧ AXI_1WIRE_HOST_ReadByte bus baseaddr fuel w = some (r &&& 0xFF, w')
      ∧ r &&& 0xFF = r % 256
      ∧ (r = 0x123 → AXI_1WIRE_HOST_ReadByte bus baseaddr fuel w = some (0x23, w'))
      ∧ w'.log = w.log ++ statTrace baseaddr rs
          ++ [Access.store (INSTR_REG baseaddr) 0x0D00, Access.store (CTRL_REG baseaddr) 1]
          ++ statTrace baseaddr ds
          ++ [Access.load (RXDATA_REG baseaddr) r, Access.store (CTRL_REG baseaddr) 0]
      ∧ rs.length = i + 1 ∧ ds.length = j + 1 := by
  have hrun := (handshake_iff bus baseaddr AXI_1WIRE_HOST_READBYTE fuel w
    (fun w4 =>
      (((AXI_1WIRE_HOST_mReadReg bus baseaddr AXI_1WIRE_HOST_RXDATA_REG_OFFSET w4).1
          &&& 0x000000FF) % 256,
        AXI_1WIRE_HOST_mWriteReg bus baseaddr AXI_1WIRE_HOST_CTRL_REG_OFFSET 0x00000000
          (AXI_1WIRE_HOST_mReadReg bus baseaddr AXI_1WIRE_HOST_RXDATA_REG_OFFSET w4).2)) _).2
    ⟨i, j, hi, hj, hready, hdone, rfl⟩
  rw [← ReadByte_eq] at hrun
  have hmod : ∀ r : Nat, (r &&& 0xFF) % 256 = r &&& 0xFF := by
    intro r
    rw [and_ff_eq_mod]
    omega
  refine ⟨_,
    AXI_1WIRE_HOST_mWriteReg bus baseaddr AXI_1WIRE_HOST_CTRL_REG_OFFSET 0x00000000
      (AXI_1WIRE_HOST_mReadReg bus baseaddr AXI_1WIRE_HOST_RXDATA_REG_OFFSET
        (statLoads bus baseaddr (j + 1) (armed bus baseaddr AXI_1WIRE_HOST_READBYTE i w))).2,
    (List.range i).map (statVal bus baseaddr w) ++ [statVal bus baseaddr w i],
    (List.range j).map (statVal bus baseaddr (armed bus baseaddr AXI_1WIRE_HOST_READBYTE i w))
      ++ [statVal bus baseaddr (armed bus baseaddr AXI_1WIRE_HOST_READBYTE i w) j],
    rfl, ?_, and_ff_eq_mod _, ?_, ?_, ?_, ?_⟩
  · rw [hrun, hmod]
    rfl
  · intro h123
    rw [hrun]
    have : (AXI_1WIRE_HOST_mReadReg bus baseaddr AXI_1WIRE_HOST_RXDATA_REG_OFFSET
        (statLoads bus baseaddr (j + 1)
          (armed bus baseaddr AXI_1WIRE_HOST_READBYTE i w))).1 = 0x123 := h123
    rw [this]
    rfl
  · rw [mWriteReg_log, mReadReg_log, handshake_log]
    simp [AXI_1WIRE_HOST_READBYTE, AXI_1WIRE_HOST_mReadReg]
  · simp
  · simp

theorem ReadByte_returns_low_byte_witness :
    ∃ w', AXI_1WIRE_HOST_ReadByte demoBus 0x40000000 2 (World.start 0) = some (0x23, w')
      ∧ w'.log =
        [Access.load 0x4000000C 0, Access.load 0x4000000C 0x10,
         Access.store 0x40000000 0x0D00, Access.store 0x40000004 1,
         Access.load 0x4000000C 0, Access.load 0x4000000C 1,
         Access.load 0x40000010 0x123, Access.store 0x40000004 0] := by
  obtain ⟨r, w', rs, ds, hr, _, _, h123, _⟩ :=
    ReadByte_returns_low_byte demoBus 0x40000000 2 1 1 (World.start 0)
      (by decide) (by decide) (by decide) (by decide)
  have hw := h123 (by rw [hr]; rfl)
  refine ⟨w', hw, ?_⟩
  have h2 : AXI_1WIRE_HOST_ReadByte demoBus 0x40000000 2 (World.start 0)
      = some (0x23, ⟨4, _⟩) := rfl
  rw [h2] at hw
  have := congrArg (fun x => x.2.log) (Option.some.inj hw)
  exact this.symm

/-! ## Write-byte -/

theorem statVals_length {σ : Type} (bus : Bus σ) (b : Nat) (w : World σ) (n : Nat) :
    (statVals bus b w n).length = n := by
  simp [statVals]

theorem statVals_succ {σ : Type} (bus : Bus σ) (b : Nat) (w : World σ) (n : Nat) :
    statVals bus b w (n + 1) = statVals bus b w n ++ [statVal bus b w n] := by
  simp [statVals, List.range_succ]

theorem statVals_clear {σ : Type} (bus : Bus σ) (b mask : Nat) (w : World σ) (k : Nat)
    (h : FirstSeen bus b mask w k) : ∀ x ∈ statVals bus b w k, x &&& mask = 0 := by
  intro x hx
  obtain ⟨i, hi, rfl⟩ := List.mem_map.1 hx
  exact h.1 i (List.mem_range.1 hi)

/-- The log when the DONE loop has returned, by the values the STAT loads returned. -/
theorem handshake_log_vals {σ : Type} (bus : Bus σ) (b op i j : Nat) (w : World σ) :
    (statLoads bus b (j + 1) (armed bus b op i w)).log
      = w.log ++ (statTrace b (statVals bus b w (i + 1))
          ++ [Access.store (INSTR_REG b) (op % 2 ^ 32), Access.store (CTRL_REG b) 1]
          ++ statTrace b (statVals bus b (armed bus b op i w) (j + 1))) := by
  rw [handshake_log, statVals_succ, statVals_succ]
  simp [statVals]

theorem WriteByte_run {σ : Type} (bus : Bus σ) (b byte fuel i j : Nat) (w : World σ)
    (hready : FirstSeen bus b 0x10 w i)
    (hdone : FirstSeen bus b 0x01
      (armed bus b (AXI_1WIRE_HOST_WRITEBYTE + (byte &&& 0xFF)) i w) j)
    (hi : i < fuel) (hj : j < fuel) :
    AXI_1WIRE_HOST_WriteByte bus b byte fuel w
      = some (AXI_1WIRE_HOST_mWriteReg bus b AXI_1WIRE_HOST_CTRL_REG_OFFSET 0x00000000
          (statLoads bus b (j + 1)
            (armed bus b (AXI_1WIRE_HOST_WRITEBYTE + (byte &&& 0xFF)) i w))) := by
  rw [WriteByte_eq]
  exact (handshake_iff bus b _ fuel w _ _).2 ⟨i, j, hi, hj, hready, hdone, rfl⟩

/-- C3: for every 8-bit `byte`, on every device where READY is first seen at STAT load `i` and,
once GO is asserted, DONE at load `j`, `AXI_1WIRE_HOST_WriteByte` returns as soon as the fuel
covers these polls, and the accesses it adds to the log contain exactly one store to INSTR. Its
value is `WRITEBYTE ||| byte`: the sum `0x0F00 + (byte &&& 0xFF)` that the code computes equals
the bitwise OR and lies between `0x0F00` and `0x0FFF`. For `byte = 0xA5` it is `0x0FA5`. -/
theorem WriteByte_instr_value {σ : Type} (bus : Bus σ) (baseaddr byte fuel i j : Nat)
    (w : World σ) (hbyte : byte < 256)
    (hready : FirstSeen bus baseaddr 0x10 w i)
    (hdone : FirstSeen bus baseaddr 0x01
      (armed bus baseaddr (AXI_1WIRE_HOST_WRITEBYTE + (byte &&& 0xFF)) i w) j)
    (hi : i < fuel) (hj : j < fuel) :
    ∃ (w' : World σ) (rs ds : List Nat) (added : List Access),
      AXI_1WIRE_HOST_WriteByte bus baseaddr byte fuel w = some w'
      ∧ w'.log = w.log ++ added
      ∧ added = statTrace baseaddr rs
          ++ [Access.store (INSTR_REG baseaddr) (AXI_1WIRE_HOST_WRITEBYTE ||| byte),
              Access.store (CTRL_REG baseaddr) 1]
          ++ statTrace baseaddr ds ++ [Access.store (CTRL_REG baseaddr) 0]
      ∧ storesTo (INSTR_REG baseaddr) added = [AXI_1WIRE_HOST_WRITEBYTE ||| byte]
      ∧ AXI_1WIRE_HOST_WRITEBYTE + (byte &&& 0xFF) = AXI_1WIRE_HOST_WRITEBYTE ||| byte
      ∧ 0x0F00 ≤ AXI_1WIRE_HOST_WRITEBYTE ||| byte
      ∧ AXI_1WIRE_HOST_WRITEBYTE ||| byte ≤ 0x0FFF
      ∧ (byte = 0xA5 → storesTo (INSTR_REG baseaddr) added = [0x0FA5]) := by
  have hor : AXI_1WIRE_HOST_WRITEBYTE + (byte &&& 0xFF) = AXI_1WIRE_HOST_WRITEBYTE ||| byte :=
    byte_add_eq_or byte hbyte
  have hand : byte &&& 0xFF = byte := by rw [and_ff_eq_mod]; omega
  have hval : AXI_1WIRE_HOST_WRITEBYTE ||| byte = 0x0F00 + byte := by
    rw [← hor, hand]; rfl
  have hmod : (AXI_1WIRE_HOST_WRITEBYTE + (byte &&& 0xFF)) % 2 ^ 32
      = AXI_1WIRE_HOST_WRITEBYTE ||| byte := by
    rw [hor, hval]; omega
  have hst : storesTo (INSTR_REG baseaddr)
      (statTrace baseaddr
          (statVals bus baseaddr w (i + 1))
        ++ [Access.store (INSTR_REG baseaddr) (AXI_1WIRE_HOST_WRITEBYTE ||| byte),
            Access.store (CTRL_REG baseaddr) 1]
        ++ statTrace baseaddr (statVals bus baseaddr
            (armed bus baseaddr (AXI_1WIRE_HOST_WRITEBYTE + (byte &&& 0xFF)) i w) (j + 1))
        ++ [Access.store (CTRL_REG baseaddr) 0])
      = [AXI_1WIRE_HOST_WRITEBYTE ||| byte] := by
    simp [storesTo_append, storesTo_statTrace, storesTo, (instr_ne_ctrl baseaddr).symm]
  refine ⟨_, statVals bus baseaddr w (i + 1),
    statVals bus baseaddr
      (armed bus baseaddr (AXI_1WIRE_HOST_WRITEBYTE + (byte &&& 0xFF)) i w) (j + 1), _,
    WriteByte_run bus baseaddr byte fuel i j w hready hdone hi hj, ?_, rfl, hst, hor,
    by omega, by omega, ?_⟩
  · rw [mWriteReg_log, handshake_log_vals, hmod]
    simp
  · intro h
    rw [hst, h]
    rfl

theorem WriteByte_instr_value_witness :
    ∃ w', AXI_1WIRE_HOST_WriteByte demoBus 0x40000000 0xA5 2 (World.start 0) = some w'
      ∧ storesTo 0x40000000 w'.log = [0x0FA5] := by
  obtain ⟨w', rs, ds, added, hrun, hlog, _, _, _, _, _, hA5⟩ :=
    WriteByte_instr_value demoBus 0x40000000 0xA5 2 1 1 (World.start 0)
      (by decide) (by decide) (by decide) (by decide) (by decide)
  refine ⟨w', hrun, ?_⟩
  rw [hlog]
  exact hA5 rfl

/-! ## Touch-bit -/

/-- The opcode `AXI_1WIRE_HOST_TouchBit` stores to INSTR, as the two branches compute it. -/
theorem touchBit_opcode (bit : Nat) :
    (if bit ≠ 0 then AXI_1WIRE_HOST_READBIT else AXI_1WIRE_HOST_WRITEBIT + (bit &&& 0x01))
      = if bit ≠ 0 then 0x0C00 else 0x0E00 := by
  by_cases h : bit = 0
  · subst h; rfl
  · simp [h, AXI_1WIRE_HOST_READBIT]

theorem and_one_mod_256 (r : Nat) : (r &&& 0x00000001) % 256 = r &&& 1 := by
  rw [Nat.and_one_is_mod]
  omega

theorem TouchBit_run_read {σ : Type} (bus : Bus σ) (b bit fuel i j : Nat) (w : World σ)
    (hbit : bit ≠ 0)
    (hready : FirstSeen bus b 0x10 w i)
    (hdone : FirstSeen bus b 0x01 (armed bus b 0x0C00 i w) j)
    (hi : i < fuel) (hj : j < fuel) :
    AXI_1WIRE_HOST_TouchBit bus b bit fuel w
      = some ((AXI_1WIRE_HOST_mReadReg bus b AXI_1WIRE_HOST_RXDATA_REG_OFFSET
                (statLoads bus b (j + 1) (armed bus b 0x0C00 i w))).1 &&& 1,
          AXI_1WIRE_HOST_mWriteReg bus b AXI_1WIRE_HOST_CTRL_REG_OFFSET 0x00000000
            (AXI_1WIRE_HOST_mReadReg bus b AXI_1WIRE_HOST_RXDATA_REG_OFFSET
              (statLoads bus b (j + 1) (armed bus b 0x0C00 i w))).2) := by
  rw [TouchBit_eq, touchBit_opcode, if_pos hbit]
  refine (handshake_iff bus b _ fuel w _ _).2 ⟨i, j, hi, hj, hready, hdone, ?_⟩
  simp only [if_pos hbit, and_one_mod_256]

theorem TouchBit_run_write {σ : Type} (bus : Bus σ) (b bit fuel i j : Nat) (w : World σ)
    (hbit : bit = 0)
    (hready : FirstSeen bus b 0x10 w i)
    (hdone : FirstSeen bus b 0x01 (armed bus b 0x0E00 i w) j)
    (hi : i < fuel) (hj : j < fuel) :
    AXI_1WIRE_HOST_TouchBit bus b bit fuel w
      = some (0, AXI_1WIRE_HOST_mWriteReg bus b AXI_1WIRE_HOST_CTRL_REG_OFFSET 0x00000000
            (statLoads bus b (j + 1) (armed bus b 0x0E00 i w))) := by
  have hn : ¬ bit ≠ 0 := fun h => h hbit
  rw [TouchBit_eq, touchBit_opcode, if_neg hn]
  refine (handshake_iff bus b _ fuel w _ _).2 ⟨i, j, hi, hj, hready, hdone, ?_⟩
  simp only [if_neg hn]

theorem TouchBit_log_read {σ : Type} (bus : Bus σ) (b i j : Nat) (w : World σ) :
    (AXI_1WIRE_HOST_mWriteReg bus b AXI_1WIRE_HOST_CTRL_REG_OFFSET 0x00000000
      (AXI_1WIRE_HOST_mReadReg bus b AXI_1WIRE_HOST_RXDATA_REG_OFFSET
        (statLoads bus b (j + 1) (armed bus b 0x0C00 i w))).2).log
    = w.log ++ (statTrace b (statVals bus b w (i + 1))
        ++ [Access.store (INSTR_REG b) 0x0C00, Access.store (CTRL_REG b) 1]
        ++ statTrace b (statVals bus b (armed bus b 0x0C00 i w) (j + 1))
        ++ [Access.load (RXDATA_REG b)
              ((bus.Xil_In32 (RXDATA_REG b)
                (statLoads bus b (j + 1) (armed bus b 0x0C00 i w)).dev).1 % 2 ^ 32),
            Access.store (CTRL_REG b) 0]) := by
  rw [mWriteReg_log, mReadReg_log, handshake_log_vals]
  simp [AXI_1WIRE_HOST_mReadReg]

theorem TouchBit_log_write {σ : Type} (bus : Bus σ) (b i j : Nat) (w : World σ) :
    (AXI_1WIRE_HOST_mWriteReg bus b AXI_1WIRE_HOST_CTRL_REG_OFFSET 0x00000000
        (statLoads bus b (j + 1) (armed bus b 0x0E00 i w))).log
    = w.log ++ (statTrace b (statVals bus b w (i + 1))
        ++ [Access.store (INSTR_REG b) 0x0E00, Access.store (CTRL_REG b) 1]
        ++ statTrace b (statVals bus b (armed bus b 0x0E00 i w) (j + 1))
        ++ [Access.store (CTRL_REG b) 0]) := by
  rw [mWriteReg_log, handshake_log_vals]
  simp

/-- C4: for every 8-bit `bit`, on every device where READY is first seen at STAT load `i` and,
once GO is asserted, DONE at load `j`, `AXI_1WIRE_HOST_TouchBit` returns as soon as the fuel
covers these polls. It takes the read branch exactly when `bit` is non-zero: then it stores
READBIT = 0x0C00 to INSTR, loads RXDATA once after the DONE poll and returns bit 0 of the value
loaded; when `bit` is 0 it stores `WRITEBIT ||| (bit &&& 1)` = 0x0E00 to INSTR, never loads
RXDATA and returns 0. So the value stored to INSTR is 0x0C00 or 0x0E00 and the result 0 or 1. -/
theorem TouchBit_read_iff_nonzero {σ : Type} (bus : Bus σ) (baseaddr bit fuel i j : Nat)
    (w : World σ) (hbit : bit < 256)
    (hready : FirstSeen bus baseaddr 0x10 w i)
    (hdone : FirstSeen bus baseaddr 0x01
      (armed bus baseaddr (if bit ≠ 0 then 0x0C00 else 0x0E00) i w) j)
    (hi : i < fuel) (hj : j < fuel) :
    ∃ (v : Nat) (w' : World σ) (rs ds : List Nat) (added : List Access),
      AXI_1WIRE_HOST_TouchBit bus baseaddr bit fuel w = some (v, w')
      ∧ w'.log = w.log ++ added
      ∧ rs.length = i + 1 ∧ ds.length = j + 1
      ∧ (bit ≠ 0 → ∃ r,
          r = (bus.Xil_In32 (RXDATA_REG baseaddr)
                (statLoads bus baseaddr (j + 1) (armed bus baseaddr 0x0C00 i w)).dev).1 % 2 ^ 32
          ∧ v = r &&& 1
          ∧ added = statTrace baseaddr rs
              ++ [Access.store (INSTR_REG baseaddr) AXI_1WIRE_HOST_READBIT,
                  Access.store (CTRL_REG baseaddr) 1]
              ++ statTrace baseaddr ds
              ++ [Access.load (RXDATA_REG baseaddr) r, Access.store (CTRL_REG baseaddr) 0])
      ∧ (bit = 0 → v = 0
          ∧ AXI_1WIRE_HOST_WRITEBIT ||| (bit &&& 1) = 0x0E00
          ∧ added = statTrace baseaddr rs
              ++ [Access.store (INSTR_REG baseaddr) (AXI_1WIRE_HOST_WRITEBIT ||| (bit &&& 1)),
                  Access.store (CTRL_REG baseaddr) 1]
              ++ statTrace baseaddr ds ++ [Access.store (CTRL_REG baseaddr) 0])
      ∧ loadCount (RXDATA_REG baseaddr) added = (if bit ≠ 0 then 1 else 0)
      ∧ storesTo (INSTR_REG baseaddr) added = [if bit ≠ 0 then 0x0C00 else 0x0E00]
      ∧ (v = 0 ∨ v = 1) := by
  have hne := stat_ne_rxdata baseaddr
  have hic := (instr_ne_ctrl baseaddr).symm
  by_cases hb : bit = 0
  · have hn : ¬ bit ≠ 0 := fun h => h hb
    rw [if_neg hn] at hdone
    refine ⟨0, _, statVals bus baseaddr w (i + 1),
      statVals bus baseaddr (armed bus baseaddr 0x0E00 i w) (j + 1), _,
      TouchBit_run_write bus baseaddr bit fuel i j w hb hready hdone hi hj,
      TouchBit_log_write bus baseaddr i j w, statVals_length _ _ _ _, statVals_length _ _ _ _,
      fun h => absurd hb h, fun _ => ⟨rfl, by subst hb; rfl, by subst hb; rfl⟩, ?_, ?_,
      Or.inl rfl⟩
    · simp [loadCount_append, loadCount_statTrace_other _ _ hne, loadCount, hb]
    · simp [storesTo_append, storesTo_statTrace, storesTo, hic, hb]
  · have hp : bit ≠ 0 := hb
    rw [if_pos hp] at hdone
    refine ⟨_, _, statVals bus baseaddr w (i + 1),
      statVals bus baseaddr (armed bus baseaddr 0x0C00 i w) (j + 1), _,
      TouchBit_run_read bus baseaddr bit fuel i j w hp hready hdone hi hj,
      TouchBit_log_read bus baseaddr i j w, statVals_length _ _ _ _, statVals_length _ _ _ _,
      fun _ => ⟨_, rfl, rfl, rfl⟩, fun h => absurd h hb, ?_, ?_, ?_⟩
    · simp [loadCount_append, loadCount_statTrace_other _ _ hne, loadCount, hb]
    · simp [storesTo_append, storesTo_statTrace, storesTo, hic, hb]
    · rw [Nat.and_one_is_mod]
      omega

theorem TouchBit_read_iff_nonzero_witness :
    ∃ w', AXI_1WIRE_HOST_TouchBit demoBus 0x40000000 2 2 (World.start 0) = some (1, w')
      ∧ storesTo 0x40000000 w'.log = [0x0C00] ∧ loadCount 0x40000010 w'.log = 1 := by
  obtain ⟨v, w', rs, ds, added, hrun, hlog, _, _, hread, _, hcnt, hst, _⟩ :=
    TouchBit_read_iff_nonzero demoBus 0x40000000 2 2 1 1 (World.start 0)
      (by decide) (by decide) (by decide) (by decide) (by decide)
  obtain ⟨r, hr, hv, _⟩ := hread (by decide)
  have hv1 : v = 1 := by rw [hv, hr]; rfl
  rw [hv1] at hrun
  refine ⟨w', hrun, ?_, ?_⟩
  · rw [hlog]; exact hst
  · rw [hlog]; exact hcnt

/-- C8, as stated, fails: on the demonstration device RXDATA holds `0x123`, whose bit 0 is 1, yet
`AXI_1WIRE_HOST_TouchBit` called with `bit = 0` completes with result 0, stores WRITEBIT = 0x0E00
to INSTR and makes no load of RXDATA at all: the result is not the sampled level. -/
theorem TouchBit_zero_does_not_sample :
    ∃ v w', AXI_1WIRE_HOST_TouchBit demoBus 0x40000000 0 2 (World.start 0) = some (v, w')
      ∧ v = 0
      ∧ (demoBus.Xil_In32 (RXDATA_REG 0x40000000) w'.dev).1 &&& 1 = 1
      ∧ v ≠ (demoBus.Xil_In32 (RXDATA_REG 0x40000000) w'.dev).1 &&& 1
      ∧ loadCount (RXDATA_REG 0x40000000) w'.log = 0
      ∧ storesTo (INSTR_REG 0x40000000) w'.log = [0x0E00] :=
  ⟨0, _, rfl, rfl, by decide, by decide, by decide, by decide⟩

/-- The polls of a handshake, by the bits that decide them: the STAT values loaded before READY
is seen all have bit 4 clear and the one that ends the READY loop has it set; the STAT values
loaded after GO before DONE is seen all have bit 0 clear and the one that ends the DONE loop has
it set. -/
theorem handshake_polls {σ : Type} (bus : Bus σ) (b op i j : Nat) (w : World σ)
    (hready : FirstSeen bus b 0x10 w i) (hdone : FirstSeen bus b 0x01 (armed bus b op i w) j) :
    (∀ x ∈ statVals bus b w i, x.testBit 4 = false)
      ∧ (statVal bus b w i).testBit 4 = true
      ∧ (∀ x ∈ statVals bus b (armed bus b op i w) j, x.testBit 0 = false)
      ∧ (statVal bus b (armed bus b op i w) j).testBit 0 = true := by
  refine ⟨?_, ?_, ?_, ?_⟩
  · intro x hx
    exact (and_two_pow_eq_zero_iff x 4).1 (statVals_clear bus b 0x10 w i hready x hx)
  · exact (and_two_pow_ne_zero_iff _ 4).1 hready.2
  · intro x hx
    exact (and_two_pow_eq_zero_iff x 0).1 (statVals_clear bus b 0x01 _ j hdone x hx)
  · exact (and_two_pow_ne_zero_iff _ 0).1 hdone.2

/-- C8, amended: for `bit` in {0, 1}, on every device where READY is first seen at STAT load `i`
and, once GO is asserted, DONE at load `j`, `AXI_1WIRE_HOST_TouchBit` returns as soon as the fuel
covers these polls, and its accesses are, in this order: the `i` READY polls `rs` that the device
answers with bit 4 clear and the poll `r0` it answers with bit 4 set; the store of the opcode to
INSTR and of 1 to CTRL; the `j` DONE polls `ds` answered with bit 0 clear and the poll `d`
answered with bit 0 set; for `bit = 1` one load of RXDATA; the store of 0 to CTRL.
For `bit = 1` the opcode is READBIT, the value `r` loaded from RXDATA is the one the device holds
right after the DONE poll `d`, and the result is bit 0 of `r`. For `bit = 0` the opcode is
WRITEBIT (payload 0), RXDATA is not loaded and the result is 0. In both cases the device is left
in the state the store of 0 to CTRL produces. -/
theorem TouchBit_levels {σ : Type} (bus : Bus σ) (baseaddr bit fuel i j : Nat)
    (w : World σ) (hbit : bit = 0 ∨ bit = 1)
    (hready : FirstSeen bus baseaddr 0x10 w i)
    (hdone : FirstSeen bus baseaddr 0x01
      (armed bus baseaddr (if bit = 1 then AXI_1WIRE_HOST_READBIT
        else AXI_1WIRE_HOST_WRITEBIT) i w) j)
    (hi : i < fuel) (hj : j < fuel) :
    ∃ (v : Nat) (w' : World σ) (added : List Access) (rs ds : List Nat) (r0 d : Nat),
      AXI_1WIRE_HOST_TouchBit bus baseaddr bit fuel w = some (v, w')
      ∧ w'.log = w.log ++ added
      ∧ rs = statVals bus baseaddr w i ∧ r0 = statVal bus baseaddr w i
      ∧ ds = statVals bus baseaddr (armed bus baseaddr (if bit = 1 then AXI_1WIRE_HOST_READBIT
              else AXI_1WIRE_HOST_WRITEBIT) i w) j
      ∧ d = statVal bus baseaddr (armed bus baseaddr (if bit = 1 then AXI_1WIRE_HOST_READBIT
              else AXI_1WIRE_HOST_WRITEBIT) i w) j
      ∧ rs.length = i ∧ ds.length = j
      ∧ (∀ x ∈ rs, x.testBit 4 = false) ∧ r0.testBit 4 = true
      ∧ (∀ x ∈ ds, x.testBit 0 = false) ∧ d.testBit 0 = true
      ∧ (bit = 1 →
          ∃ r : Nat,
            r = (bus.Xil_In32 (RXDATA_REG baseaddr)
                  (statLoads bus baseaddr (j + 1)
                    (armed bus baseaddr AXI_1WIRE_HOST_READBIT i w)).dev).1 % 2 ^ 32
            ∧ added = statTrace baseaddr (rs ++ [r0])
                ++ [Access.store (INSTR_REG baseaddr) AXI_1WIRE_HOST_READBIT,
                    Access.store (CTRL_REG baseaddr) 1]
                ++ statTrace baseaddr (ds ++ [d])
                ++ [Access.load (RXDATA_REG baseaddr) r, Access.store (CTRL_REG baseaddr) 0]
            ∧ v = (if r.testBit 0 then 1 else 0)
            ∧ w'.dev = bus.Xil_Out32 (CTRL_REG baseaddr) 0
                (bus.Xil_In32 (RXDATA_REG baseaddr)
                  (statLoads bus baseaddr (j + 1)
                    (armed bus baseaddr AXI_1WIRE_HOST_READBIT i w)).dev).2
            ∧ storesTo (INSTR_REG baseaddr) added = [AXI_1WIRE_HOST_READBIT]
            ∧ loadCount (RXDATA_REG baseaddr) added = 1)
      ∧ (bit = 0 →
          added = statTrace baseaddr (rs ++ [r0])
                ++ [Access.store (INSTR_REG baseaddr) AXI_1WIRE_HOST_WRITEBIT,
                    Access.store (CTRL_REG baseaddr) 1]
                ++ statTrace baseaddr (ds ++ [d])
                ++ [Access.store (CTRL_REG baseaddr) 0]
          ∧ v = 0
          ∧ w'.dev = bus.Xil_Out32 (CTRL_REG baseaddr) 0
              (statLoads bus baseaddr (j + 1)
                (armed bus baseaddr AXI_1WIRE_HOST_WRITEBIT i w)).dev
          ∧ storesTo (INSTR_REG baseaddr) added = [AXI_1WIRE_HOST_WRITEBIT]
          ∧ loadCount (RXDATA_REG baseaddr) added = 0) := by
  have hne := stat_ne_rxdata baseaddr
  have hic := (instr_ne_ctrl baseaddr).symm
  rcases hbit with hb | hb
  · subst hb
    obtain ⟨p1, p2, p3, p4⟩ := handshake_polls bus baseaddr 0x0E00 i j w hready hdone
    refine ⟨0, _, _, statVals bus baseaddr w i, statVals bus baseaddr
        (armed bus baseaddr 0x0E00 i w) j, statVal bus baseaddr w i,
      statVal bus baseaddr (armed bus baseaddr 0x0E00 i w) j,
      TouchBit_run_write bus baseaddr 0 fuel i j w rfl hready hdone hi hj,
      TouchBit_log_write bus baseaddr i j w, rfl, rfl, rfl, rfl,
      statVals_length _ _ _ _, statVals_length _ _ _ _, p1, p2, p3, p4,
      fun h => absurd h (by decide), fun _ => ⟨?_, rfl, rfl, ?_, ?_⟩⟩
    · rw [statVals_succ, statVals_succ]
      rfl
    · simp [storesTo_append, storesTo_statTrace, storesTo, hic, AXI_1WIRE_HOST_WRITEBIT]
    · simp [loadCount_append, loadCount_statTrace_other _ _ hne, loadCount]
  · subst hb
    obtain ⟨p1, p2, p3, p4⟩ := handshake_polls bus baseaddr 0x0C00 i j w hready hdone
    refine ⟨_, _, _, statVals bus baseaddr w i, statVals bus baseaddr
        (armed bus baseaddr 0x0C00 i w) j, statVal bus baseaddr w i,
      statVal bus baseaddr (armed bus baseaddr 0x0C00 i w) j,
      TouchBit_run_read bus baseaddr 1 fuel i j w (by decide) hready hdone hi hj,
      TouchBit_log_read bus baseaddr i j w, rfl, rfl, rfl, rfl,
      statVals_length _ _ _ _, statVals_length _ _ _ _, p1, p2, p3, p4,
      fun _ => ⟨_, rfl, ?_, and_one_eq_ite _, rfl, ?_, ?_⟩,
      fun h => absurd h (by decide)⟩
    · rw [statVals_succ, statVals_succ]
      rfl
    · simp [storesTo_append, storesTo_statTrace, storesTo, hic, AXI_1WIRE_HOST_READBIT]
    · simp [loadCount_append, loadCount_statTrace_other _ _ hne, loadCount]

theorem TouchBit_levels_witness :
    ∃ w', AXI_1WIRE_HOST_TouchBit demoBus 0x40000000 0 2 (World.start 0) = some (0, w')
      ∧ w'.log = [Access.load 0x4000000C 0, Access.load 0x4000000C 0x10,
          Access.store 0x40000000 0x0E00, Access.store 0x40000004 1,
          Access.load 0x4000000C 0, Access.load 0x4000000C 1,
          Access.store 0x40000004 0] := by
  obtain ⟨v, w', added, rs, ds, r0, d, hrun, hlog, hrs, hr0, hds, hd, _, _, _, _, _, _, _,
      hzero⟩ :=
    TouchBit_levels demoBus 0x40000000 0 2 1 1 (World.start 0)
      (by decide) (by decide) (by decide) (by decide) (by decide)
  obtain ⟨hadd, hv, _⟩ := hzero rfl
  rw [hv] at hrun
  refine ⟨w', hrun, ?_⟩
  rw [hlog, hadd, hrs, hr0, hds, hd]
  rfl

/-! ## Reset-presence -/

/-- The accesses of a handshake that has completed, from the first STAT load to the last DONE
poll: the READY polls all but the last have bit 4 clear and the last has it set, the DONE polls
all but the last have bit 0 clear and the last has it set. -/
theorem handshake_shape {σ : Type} (bus : Bus σ) (b op i j : Nat) (w : World σ)
    (hready : FirstSeen bus b 0x10 w i) (hdone : FirstSeen bus b 0x01 (armed bus b op i w) j) :
    ∃ (rs ds : List Nat) (r d : Nat),
      (∀ x ∈ rs, x.testBit 4 = false) ∧ r.testBit 4 = true
      ∧ (∀ x ∈ ds, x.testBit 0 = false) ∧ d.testBit 0 = true
      ∧ rs.length = i ∧ ds.length = j
      ∧ (statLoads bus b (j + 1) (armed bus b op i w)).log
          = w.log ++ (statTrace b (rs ++ [r])
              ++ [Access.store (INSTR_REG b) (op % 2 ^ 32), Access.store (CTRL_REG b) 1]
              ++ statTrace b (ds ++ [d])) := by
  refine ⟨statVals bus b w i, statVals bus b (armed bus b op i w) j, statVal bus b w i,
    statVal bus b (armed bus b op i w) j, ?_, ?_, ?_, ?_, statVals_length _ _ _ _,
    statVals_length _ _ _ _, ?_⟩
  · intro x hx
    exact (and_two_pow_eq_zero_iff x 4).1 (statVals_clear bus b 0x10 w i hready x hx)
  · exact (and_two_pow_ne_zero_iff _ 4).1 hready.2
  · intro x hx
    exact (and_two_pow_eq_zero_iff x 0).1 (statVals_clear bus b 0x01 _ j hdone x hx)
  · exact (and_two_pow_ne_zero_iff _ 0).1 hdone.2
  · rw [handshake_log_vals, statVals_succ, statVals_succ]

/-- C1: whenever `AXI_1WIRE_HOST_ResetBus` completes, its accesses are the store of RESET to
CTRL, the READY polls, the stores of INITPRES to INSTR and of GO to CTRL, the DONE polls ending
with a STAT value `d` that has DONE set, one further load `p` of STAT, and the store of 0 to
CTRL. The result is 1 (no device present) if bit 31 of `p` is 1 and 0 (device present) if it is
0; it is never another value, it is a function of that one bit, and RXDATA is not loaded. -/
theorem ResetBus_presence {σ : Type} (bus : Bus σ) (baseaddr fuel v : Nat) (w w' : World σ)
    (h : AXI_1WIRE_HOST_ResetBus bus baseaddr fuel w = some (v, w')) :
    ∃ (rs ds : List Nat) (r d p : Nat) (added : List Access),
      w'.log = w.log ++ added
      ∧ added = [Access.store (CTRL_REG baseaddr) AXI_1WIRE_HOST_RESET]
          ++ statTrace baseaddr (rs ++ [r])
          ++ [Access.store (INSTR_REG baseaddr) AXI_1WIRE_HOST_INITPRES,
              Access.store (CTRL_REG baseaddr) 1]
          ++ statTrace baseaddr (ds ++ [d])
          ++ [Access.load (STAT_REG baseaddr) p, Access.store (CTRL_REG baseaddr) 0]
      ∧ d.testBit 0 = true
      ∧ v = (if p.testBit 31 then 1 else 0)
      ∧ (p.testBit 31 = true → v = 1)
      ∧ (p.testBit 31 = false → v = 0)
      ∧ (v = 0 ∨ v = 1)
      ∧ loadCount (RXDATA_REG baseaddr) added = 0 := by
  rw [ResetBus_eq] at h
  obtain ⟨i, j, _, _, hready, hdone, hres⟩ := (handshake_iff bus baseaddr _ fuel _ _ _).1 h
  obtain ⟨rs, ds, r, d, _, _, _, hd, _, _, hlog⟩ :=
    handshake_shape bus baseaddr AXI_1WIRE_HOST_INITPRES i j _ hready hdone
  have hv := congrArg Prod.fst hres
  have hw := congrArg Prod.snd hres
  simp only at hv hw
  have hne := stat_ne_rxdata baseaddr
  have hbit : ∀ p : Nat, (p &&& 0x80000000 ≠ 0) ↔ p.testBit 31 = true :=
    fun p => and_two_pow_ne_zero_iff p 31
  have hvp : v = if (AXI_1WIRE_HOST_mReadReg bus baseaddr AXI_1WIRE_HOST_STAT_REG_OFFSET
      (statLoads bus baseaddr (j + 1) (armed bus baseaddr AXI_1WIRE_HOST_INITPRES i
        (AXI_1WIRE_HOST_mWriteReg bus baseaddr AXI_1WIRE_HOST_CTRL_REG_OFFSET
          AXI_1WIRE_HOST_RESET w)))).1.testBit 31 then 1 else 0 := by
    rw [hv]
    simp only [hbit]
  refine ⟨rs, ds, r, d, _, _, ?_, rfl, hd, hvp, ?_, ?_, ?_, ?_⟩
  · rw [hw, mWriteReg_log, mReadReg_log, hlog, mWriteReg_log]
    simp [AXI_1WIRE_HOST_RESET, AXI_1WIRE_HOST_INITPRES]
  · intro hp
    rw [hvp, if_pos hp]
  · intro hp
    rw [hvp, hp]
    rfl
  · rw [hvp]
    split
    · exact Or.inr rfl
    · exact Or.inl rfl
  · simp [loadCount_append, loadCount_statTrace_other _ _ hne, loadCount, hne]

theorem ResetBus_presence_witness :
    AXI_1WIRE_HOST_ResetBus demoBus 0x40000000 2 (World.start 0)
        = some (1, ⟨5, [Access.store 0x40000004 0x80000000,
            Access.load 0x4000000C 0, Access.load 0x4000000C 0x10,
            Access.store 0x40000000 0x0800, Access.store 0x40000004 1,
            Access.load 0x4000000C 0, Access.load 0x4000000C 1,
            Access.load 0x4000000C 0x80000000, Access.store 0x40000004 0]⟩)
      ∧ ∃ p : Nat, p.testBit 31 = true ∧ (1 : Nat) = if p.testBit 31 then 1 else 0 := by
  refine ⟨rfl, ?_⟩
  obtain ⟨rs, ds, r, d, p, added, _, _, _, hv, _, h0, _⟩ :=
    ResetBus_presence demoBus 0x40000000 2 1 (World.start 0)
      ⟨5, [Access.store 0x40000004 0x80000000,
           Access.load 0x4000000C 0, Access.load 0x4000000C 0x10,
           Access.store 0x40000000 0x0800, Access.store 0x40000004 1,
           Access.load 0x4000000C 0, Access.load 0x4000000C 1,
           Access.load 0x4000000C 0x80000000, Access.store 0x40000004 0]⟩ rfl
  refine ⟨p, ?_, hv⟩
  cases hp : p.testBit 31 with
  | true => rfl
  | false => exact absurd (h0 hp) (by decide)

/-! ## Every sequenced operation is one handshake -/

/-- A sequenced operation that returns has gone through one handshake: after the accesses `first`
READY was seen at STAT load `i`, the opcode `opc` and GO were stored, DONE was seen at load `j`,
the accesses `last` followed, and the final access is the store of 0 to CTRL. -/
theorem exec_some {σ : Type} (bus : Bus σ) (b fuel : Nat) (w w' : World σ) (op : Op)
    (h : op.exec bus b fuel w = some w') :
    ∃ (i j opc : Nat) (first last : List Access) (w0 X : World σ),
      i < fuel ∧ j < fuel
      ∧ w0.log = w.log ++ first
      ∧ FirstSeen bus b 0x10 w0 i ∧ FirstSeen bus b 0x01 (armed bus b opc i w0) j
      ∧ X.log = (statLoads bus b (j + 1) (armed bus b opc i w0)).log ++ last
      ∧ w' = AXI_1WIRE_HOST_mWriteReg bus b AXI_1WIRE_HOST_CTRL_REG_OFFSET 0x00000000 X
      ∧ (match op with
         | Op.touchBit bit =>
            first = [] ∧ opc = (if bit ≠ 0 then 0x0C00 else 0x0E00)
            ∧ (if bit ≠ 0 then ∃ x, last = [Access.load (RXDATA_REG b) x] else last = [])
         | Op.readByte =>
            first = [] ∧ opc = 0x0D00 ∧ ∃ x, last = [Access.load (RXDATA_REG b) x]
         | Op.writeByte byte =>
            first = [] ∧ opc = 0x0F00 + (byte &&& 0xFF) ∧ last = []
         | Op.resetBus =>
            first = [Access.store (CTRL_REG b) 0x80000000] ∧ opc = 0x0800
            ∧ ∃ p, last = [Access.load (STAT_REG b) p])
      ∧ w0 = op.enter bus b w := by
  cases op with
  | touchBit bit =>
    simp only [Op.exec, Option.map_eq_some'] at h
    obtain ⟨⟨v, w''⟩, hrun, hw⟩ := h
    simp only at hw
    subst hw
    rw [TouchBit_eq, touchBit_opcode] at hrun
    obtain ⟨i, j, hi, hj, hready, hdone, hres⟩ := (handshake_iff bus b _ fuel _ _ _).1 hrun
    by_cases hb : bit ≠ 0
    · simp only [if_pos hb] at hres hdone
      have hw := congrArg Prod.snd hres
      simp only at hw
      exact ⟨i, j, 0x0C00, [], _, w, _, hi, hj, by simp, hready, hdone, mReadReg_log _ _ _ _, hw,
        ⟨rfl, by simp only [if_pos hb], by simp only [if_pos hb]; exact ⟨_, rfl⟩⟩, rfl⟩
    · simp only [if_neg hb] at hres hdone
      have hw := congrArg Prod.snd hres
      simp only at hw
      exact ⟨i, j, 0x0E00, [], [], w, _, hi, hj, by simp, hready, hdone, by simp, hw,
        ⟨rfl, by simp only [if_neg hb], by simp only [if_neg hb]⟩, rfl⟩
  | readByte =>
    simp only [Op.exec, Option.map_eq_some'] at h
    obtain ⟨⟨v, w''⟩, hrun, hw⟩ := h
    simp only at hw
    subst hw
    rw [ReadByte_eq] at hrun
    obtain ⟨i, j, hi, hj, hready, hdone, hres⟩ := (handshake_iff bus b _ fuel _ _ _).1 hrun
    have hw := congrArg Prod.snd hres
    simp only at hw
    exact ⟨i, j, _, [], _, w, _, hi, hj, by simp, hready, hdone, mReadReg_log _ _ _ _, hw,
      ⟨rfl, rfl, ⟨_, rfl⟩⟩, rfl⟩
  | writeByte byte =>
    simp only [Op.exec] at h
    rw [WriteByte_eq] at h
    obtain ⟨i, j, hi, hj, hready, hdone, hres⟩ := (handshake_iff bus b _ fuel _ _ _).1 h
    exact ⟨i, j, _, [], [], w, _, hi, hj, by simp, hready, hdone, by simp, hres,
      ⟨rfl, rfl, rfl⟩, rfl⟩
  | resetBus =>
    simp only [Op.exec, Option.map_eq_some'] at h
    obtain ⟨⟨v, w''⟩, hrun, hw⟩ := h
    simp only at hw
    subst hw
    rw [ResetBus_eq] at hrun
    obtain ⟨i, j, hi, hj, hready, hdone, hres⟩ := (handshake_iff bus b _ fuel _ _ _).1 hrun
    have hw := congrArg Prod.snd hres
    simp only at hw
    exact ⟨i, j, _, _, _, _, _, hi, hj, mWriteReg_log _ _ _ _ _, hready, hdone,
      mReadReg_log _ _ _ _, hw, ⟨rfl, rfl, ⟨_, rfl⟩⟩, rfl⟩

theorem lastStore_append_store (a v : Nat) (l : List Access) :
    lastStore a (l ++ [Access.store a v]) = some v := by
  induction l with
  | nil => simp [lastStore]
  | cons x l ih =>
    cases x with
    | load a' v' => simpa [lastStore] using ih
    | store a' v' => simp [lastStore, ih]

/-- C5: whichever of TouchBit, ReadByte, WriteByte and ResetBus is called, with whatever
argument and on whatever device, if the call completes then the last access it made is the
store of `0x00000000` to CTRL. So the last value stored to CTRL is 0, with bit 0 (GO) and bit 31
(RESET) both clear, and the device is left in the state that this store produced. -/
theorem go_cleared_on_return {σ : Type} (bus : Bus σ) (baseaddr fuel : Nat) (w w' : World σ)
    (op : Op) (h : op.exec bus baseaddr fuel w = some w') :
    ∃ (pre : List Access) (c : Nat) (d : σ),
      w'.log = w.log ++ pre ++ [Access.store (CTRL_REG baseaddr) c]
      ∧ lastStore (CTRL_REG baseaddr) w'.log = some c
      ∧ c = 0x00000000 ∧ c.testBit 0 = false ∧ c.testBit 31 = false
      ∧ w'.dev = bus.Xil_Out32 (CTRL_REG baseaddr) c d := by
  obtain ⟨i, j, opc, first, last, w0, X, _, _, hw0, hready, hdone, hX, hw', _⟩ :=
    exec_some bus baseaddr fuel w w' op h
  obtain ⟨rs, ds, r, d, _, _, _, _, _, _, hlog⟩ :=
    handshake_shape bus baseaddr opc i j w0 hready hdone
  have hl : w'.log = w.log ++ (first ++ (statTrace baseaddr (rs ++ [r])
              ++ [Access.store (INSTR_REG baseaddr) (opc % 2 ^ 32),
                  Access.store (CTRL_REG baseaddr) 1]
              ++ statTrace baseaddr (ds ++ [d])) ++ last)
            ++ [Access.store (CTRL_REG baseaddr) 0] := by
    rw [hw', mWriteReg_log, hX, hlog, hw0]
    simp
  refine ⟨_, 0, X.dev, hl, ?_, rfl, rfl, rfl, ?_⟩
  · rw [hl]
    exact lastStore_append_store _ _ _
  · rw [hw']
    rfl

theorem go_cleared_on_return_witness :
    ∃ pre, [Access.store 0x40000004 0x80000000,
           Access.load 0x4000000C 0, Access.load 0x4000000C 0x10,
           Access.store 0x40000000 0x0800, Access.store 0x40000004 1,
           Access.load 0x4000000C 0, Access.load 0x4000000C 1,
           Access.load 0x4000000C 0x80000000, Access.store 0x40000004 0]
        = pre ++ [Access.store (CTRL_REG 0x40000000) 0] := by
  obtain ⟨pre, c, d, hlog, _, hc, _⟩ :=
    go_cleared_on_return demoBus 0x40000000 2 (World.start 0)
      ⟨5, [Access.store 0x40000004 0x80000000,
           Access.load 0x4000000C 0, Access.load 0x4000000C 0x10,
           Access.store 0x40000000 0x0800, Access.store 0x40000004 1,
           Access.load 0x4000000C 0, Access.load 0x4000000C 1,
           Access.load 0x4000000C 0x80000000, Access.store 0x40000004 0]⟩ Op.resetBus rfl
  subst hc
  exact ⟨pre, by simpa [World.start] using hlog⟩

/-! ## Order of the handshake -/

theorem notReadyOnlyRepolls_polls (b a v : Nat) (rs : List Nat) (r : Nat)
    (hr : r.testBit 4 = true) :
    notReadyOnlyRepolls (STAT_REG b) (statTrace b (rs ++ [r]) ++ [Access.store a v]) = true := by
  have hr' : r &&& 0x10 ≠ 0 := (and_two_pow_ne_zero_iff r 4).2 hr
  induction rs with
  | nil => simp [statTrace, notReadyOnlyRepolls, hr']
  | cons x rs ih =>
    cases rs with
    | nil =>
      simp only [statTrace, List.nil_append, List.map_cons, List.map_nil,
        List.cons_append] at ih ⊢
      simp only [notReadyOnlyRepolls] at ih ⊢
      simp [hr']
    | cons y rs =>
      simp only [statTrace, List.map_cons, List.cons_append] at ih ⊢
      rw [notReadyOnlyRepolls, ih]
      simp

theorem notReadyOnlyRepolls_store_polls (b a0 v0 a v : Nat) (rs : List Nat) (r : Nat)
    (hr : r.testBit 4 = true) :
    notReadyOnlyRepolls (STAT_REG b)
      ([Access.store a0 v0] ++ statTrace b (rs ++ [r]) ++ [Access.store a v]) = true := by
  have h := notReadyOnlyRepolls_polls b a v rs r hr
  cases rs with
  | nil =>
    simp only [statTrace, List.nil_append, List.map_cons, List.map_nil,
      List.cons_append] at h ⊢
    rw [notReadyOnlyRepolls]
    exact h
  | cons y rs =>
    simp only [statTrace, List.map_cons, List.cons_append, List.nil_append] at h ⊢
    rw [notReadyOnlyRepolls]
    exact h

/-- C9, as stated, fails in its clause that no STAT read with bit 4 clear is followed by anything
but another STAT read: on the demonstration device `AXI_1WIRE_HOST_WriteByte` completes, its fourth
STAT value is `0x01` (DONE set, READY clear), and the access that follows it is the store of 0 to
CTRL, not another load of STAT. -/
theorem done_poll_not_ready_gated :
    ∃ w', AXI_1WIRE_HOST_WriteByte demoBus 0x40000000 0xA5 2 (World.start 0) = some w'
      ∧ w'.log = [Access.load (STAT_REG 0x40000000) 0, Access.load (STAT_REG 0x40000000) 0x10,
          Access.store (INSTR_REG 0x40000000) 0x0FA5, Access.store (CTRL_REG 0x40000000) 1,
          Access.load (STAT_REG 0x40000000) 0, Access.load (STAT_REG 0x40000000) 0x01,
          Access.store (CTRL_REG 0x40000000) 0]
      ∧ (0x01 : Nat).testBit 4 = false
      ∧ notReadyOnlyRepolls (STAT_REG 0x40000000) w'.log = false :=
  ⟨_, rfl, rfl, by decide, by decide⟩

/-- C9, amended: on every completing run of TouchBit, ReadByte, WriteByte or ResetBus the accesses
added to the log are: `first` (empty, or for ResetBus the store of RESET to CTRL); STAT loads
`rs` with bit 4 clear and one STAT load `r` with bit 4 set; the store of the opcode to INSTR; the
store of 1 to CTRL; STAT loads `ds` with bit 0 clear and one STAT load `d` with bit 0 set; `last`
(empty, one load of RXDATA, or for ResetBus one more load of STAT); the store of 0 to CTRL.
Hence the stores are exactly `[INSTR := opcode, CTRL := 1, CTRL := 0]` (preceded by
`CTRL := 0x80000000` in ResetBus), the INSTR store directly follows a STAT load with READY set,
up to the INSTR store every STAT load with bit 4 clear is followed by another STAT load (the
loads after `CTRL := 1` are tested for bit 0 only), the store of 0 to CTRL comes after a STAT
load with DONE set that was made after `CTRL := 1`, and 1 is stored to CTRL exactly once. -/
theorem handshake_order {σ : Type} (bus : Bus σ) (baseaddr fuel : Nat) (w w' : World σ)
    (op : Op) (h : op.exec bus baseaddr fuel w = some w') :
    ∃ (first last added : List Access) (opcode : Nat) (rs ds : List Nat) (r d : Nat),
      w'.log = w.log ++ added
      ∧ added = first ++ statTrace baseaddr (rs ++ [r])
          ++ [Access.store (INSTR_REG baseaddr) opcode, Access.store (CTRL_REG baseaddr) 1]
          ++ statTrace baseaddr (ds ++ [d]) ++ last ++ [Access.store (CTRL_REG baseaddr) 0]
      ∧ (∀ x ∈ rs, x.testBit 4 = false) ∧ r.testBit 4 = true
      ∧ (∀ x ∈ ds, x.testBit 0 = false) ∧ d.testBit 0 = true
      ∧ (match op with
         | Op.touchBit bit =>
            first = []
            ∧ opcode = (if bit ≠ 0 then AXI_1WIRE_HOST_READBIT else AXI_1WIRE_HOST_WRITEBIT)
            ∧ (if bit ≠ 0 then ∃ x, last = [Access.load (RXDATA_REG baseaddr) x] else last = [])
            ∧ stores added = [(INSTR_REG baseaddr, opcode), (CTRL_REG baseaddr, 1),
                (CTRL_REG baseaddr, 0)]
         | Op.readByte =>
            first = [] ∧ opcode = AXI_1WIRE_HOST_READBYTE
            ∧ (∃ x, last = [Access.load (RXDATA_REG baseaddr) x])
            ∧ stores added = [(INSTR_REG baseaddr, opcode), (CTRL_REG baseaddr, 1),
                (CTRL_REG baseaddr, 0)]
         | Op.writeByte byte =>
            first = [] ∧ opcode = AXI_1WIRE_HOST_WRITEBYTE + byte % 256 ∧ last = []
            ∧ stores added = [(INSTR_REG baseaddr, opcode), (CTRL_REG baseaddr, 1),
                (CTRL_REG baseaddr, 0)]
         | Op.resetBus =>
            first = [Access.store (CTRL_REG baseaddr) 0x80000000]
            ∧ opcode = AXI_1WIRE_HOST_INITPRES
            ∧ (∃ p, last = [Access.load (STAT_REG baseaddr) p])
            ∧ stores added = [(CTRL_REG baseaddr, 0x80000000), (INSTR_REG baseaddr, 0x0800),
                (CTRL_REG baseaddr, 1), (CTRL_REG baseaddr, 0)])
      ∧ notReadyOnlyRepolls (STAT_REG baseaddr)
          (first ++ statTrace baseaddr (rs ++ [r])
            ++ [Access.store (INSTR_REG baseaddr) opcode]) = true
      ∧ (storesTo (CTRL_REG baseaddr) added).count 1 = 1 := by
  obtain ⟨i, j, opc, first, last, w0, X, _, _, hw0, hready, hdone, hX, hw', hop, _⟩ :=
    exec_some bus baseaddr fuel w w' op h
  obtain ⟨rs, ds, r, d, hrs, hr, hds, hd, _, _, hlog⟩ :=
    handshake_shape bus baseaddr opc i j w0 hready hdone
  have hl : w'.log = w.log ++ (first ++ statTrace baseaddr (rs ++ [r])
          ++ [Access.store (INSTR_REG baseaddr) (opc % 2 ^ 32),
              Access.store (CTRL_REG baseaddr) 1]
          ++ statTrace baseaddr (ds ++ [d]) ++ last
          ++ [Access.store (CTRL_REG baseaddr) 0]) := by
    rw [hw', mWriteReg_log, hX, hlog, hw0]
    simp
  have hic := (instr_ne_ctrl baseaddr).symm
  have hic' := instr_ne_ctrl baseaddr
  refine ⟨first, last, _, opc % 2 ^ 32, rs, ds, r, d, hl, rfl, hrs, hr, hds, hd, ?_, ?_, ?_⟩
  · cases op with
    | touchBit bit =>
      obtain ⟨hf, ho, hla⟩ := hop
      subst hf
      refine ⟨rfl, ?_, hla, ?_⟩
      · rw [ho]
        by_cases hb : bit ≠ 0
        · simp only [if_pos hb]; rfl
        · simp only [if_neg hb]; rfl
      · by_cases hb : bit ≠ 0
        · simp only [if_pos hb] at hla
          obtain ⟨x, hx⟩ := hla
          subst hx
          simp [stores_append, stores_statTrace, stores]
        · simp only [if_neg hb] at hla
          subst hla
          simp [stores_append, stores_statTrace, stores]
    | readByte =>
      obtain ⟨hf, ho, x, hx⟩ := hop
      subst hf; subst hx
      refine ⟨rfl, by rw [ho]; rfl, ⟨x, rfl⟩, ?_⟩
      simp [stores_append, stores_statTrace, stores]
    | writeByte byte =>
      obtain ⟨hf, ho, hla⟩ := hop
      subst hf; subst hla
      have hm : byte % 256 < 256 := Nat.mod_lt _ (by norm_num)
      refine ⟨rfl, ?_, rfl, ?_⟩
      · rw [ho, and_ff_eq_mod]
        simp only [AXI_1WIRE_HOST_WRITEBYTE]
        omega
      · simp [stores_append, stores_statTrace, stores]
    | resetBus =>
      obtain ⟨hf, ho, p, hp⟩ := hop
      subst hf; subst hp
      refine ⟨rfl, by rw [ho]; rfl, ⟨p, rfl⟩, ?_⟩
      simp [stores_append, stores_statTrace, stores, ho]
  · cases op with
    | touchBit bit =>
      obtain ⟨hf, _, _⟩ := hop
      subst hf
      exact notReadyOnlyRepolls_polls baseaddr _ _ rs r hr
    | readByte =>
      obtain ⟨hf, _, _⟩ := hop
      subst hf
      exact notReadyOnlyRepolls_polls baseaddr _ _ rs r hr
    | writeByte byte =>
      obtain ⟨hf, _, _⟩ := hop
      subst hf
      exact notReadyOnlyRepolls_polls baseaddr _ _ rs r hr
    | resetBus =>
      obtain ⟨hf, _, _⟩ := hop
      subst hf
      exact notReadyOnlyRepolls_store_polls baseaddr _ _ _ _ rs r hr
  · cases op with
    | touchBit bit =>
      obtain ⟨hf, _, hla⟩ := hop
      subst hf
      by_cases hb : bit ≠ 0
      · simp only [if_pos hb] at hla
        obtain ⟨x, hx⟩ := hla
        subst hx
        simp [storesTo_append, storesTo_statTrace, storesTo, hic']
      · simp only [if_neg hb] at hla
        subst hla
        simp [storesTo_append, storesTo_statTrace, storesTo, hic']
    | readByte =>
      obtain ⟨hf, _, x, hx⟩ := hop
      subst hf; subst hx
      simp [storesTo_append, storesTo_statTrace, storesTo, hic']
    | writeByte byte =>
      obtain ⟨hf, _, hla⟩ := hop
      subst hf; subst hla
      simp [storesTo_append, storesTo_statTrace, storesTo, hic']
    | resetBus =>
      obtain ⟨hf, _, p, hp⟩ := hop
      subst hf; subst hp
      simp [storesTo_append, storesTo_statTrace, storesTo, hic']

theorem handshake_order_witness :
    ∃ (first last : List Access) (rs ds : List Nat) (r d : Nat),
      [Access.load 0x4000000C 0, Access.load 0x4000000C 0x10,
         Access.store 0x40000000 0x0D00, Access.store 0x40000004 1,
         Access.load 0x4000000C 0, Access.load 0x4000000C 1,
         Access.load 0x40000010 0x123, Access.store 0x40000004 0]
        = first ++ statTrace 0x40000000 (rs ++ [r])
          ++ [Access.store (INSTR_REG 0x40000000) AXI_1WIRE_HOST_READBYTE,
              Access.store (CTRL_REG 0x40000000) 1]
          ++ statTrace 0x40000000 (ds ++ [d]) ++ last ++ [Access.store (CTRL_REG 0x40000000) 0]
      ∧ r.testBit 4 = true ∧ d.testBit 0 = true := by
  obtain ⟨first, last, added, opcode, rs, ds, r, d, hlog, hadd, _, hr, _, hd, hop, _⟩ :=
    handshake_order demoBus 0x40000000 2 (World.start 0)
      ⟨4, [Access.load 0x4000000C 0, Access.load 0x4000000C 0x10,
         Access.store 0x40000000 0x0D00, Access.store 0x40000004 1,
         Access.load 0x4000000C 0, Access.load 0x4000000C 1,
         Access.load 0x40000010 0x123, Access.store 0x40000004 0]⟩ Op.readByte rfl
  obtain ⟨_, ho, _⟩ := hop
  subst ho
  refine ⟨first, last, rs, ds, r, d, ?_, hr, hd⟩
  rw [← hadd]
  simpa [World.start] using hlog

/-! ## Self-test -/

/-- C6: let `ip_id` and `ip_ver` be the 32-bit values that the device returns for the load of
IPID and the following load of IPVER. `AXI_1WIRE_HOST_SelfTest` returns `XST_SUCCESS` if and only
if `ip_id = 0x10EE4453` and `(ip_ver >>> 24) &&& 0xFF = 0x76` (the top byte of IPVER), and
`XST_FAILURE` otherwise, so for every other IPID whatever IPVER is. Its accesses are exactly one
load of IPID and one load of IPVER: there is no store, the device ends in the state the two loads
leave, and it is unchanged when these loads have no side effect. -/
theorem SelfTest_identification {σ : Type} (bus : Bus σ) (baseaddr ip_id ip_ver : Nat)
    (w : World σ) (d1 d2 : σ)
    (hid : bus.Xil_In32 (IPID_REG baseaddr) w.dev = (ip_id, d1))
    (hver : bus.Xil_In32 (IPVER_REG baseaddr) d1 = (ip_ver, d2))
    (h1 : ip_id < 2 ^ 32) (h2 : ip_ver < 2 ^ 32) :
    ((AXI_1WIRE_HOST_SelfTest bus baseaddr w).1 = XStatus.XST_SUCCESS
        ↔ ip_id = 0x10EE4453 ∧ (ip_ver >>> 24) &&& 0xFF = 0x76)
      ∧ ((AXI_1WIRE_HOST_SelfTest bus baseaddr w).1 = XStatus.XST_FAILURE
        ↔ ¬ (ip_id = 0x10EE4453 ∧ (ip_ver >>> 24) &&& 0xFF = 0x76))
      ∧ (ip_id ≠ 0x10EE4453 → (AXI_1WIRE_HOST_SelfTest bus baseaddr w).1 = XStatus.XST_FAILURE)
      ∧ (ip_ver >>> 24) &&& 0xFF = ip_ver / 2 ^ 24
      ∧ (AXI_1WIRE_HOST_SelfTest bus baseaddr w).2.log
          = w.log ++ [Access.load (IPID_REG baseaddr) ip_id,
                      Access.load (IPVER_REG baseaddr) ip_ver]
      ∧ stores (AXI_1WIRE_HOST_SelfTest bus baseaddr w).2.log = stores w.log
      ∧ (AXI_1WIRE_HOST_SelfTest bus baseaddr w).2.dev = d2
      ∧ (d1 = w.dev → d2 = d1 → (AXI_1WIRE_HOST_SelfTest bus baseaddr w).2.dev = w.dev) := by
  have hid' : bus.Xil_In32 (regAddr baseaddr AXI_1WIRE_HOST_IPID_REG_OFFSET) w.dev
      = (ip_id, d1) := hid
  have hver' : bus.Xil_In32 (regAddr baseaddr AXI_1WIRE_HOST_IPVER_REG_OFFSET) d1
      = (ip_ver, d2) := hver
  have m1 : ip_id % 2 ^ 32 = ip_id := Nat.mod_eq_of_lt h1
  have m2 : ip_ver % 2 ^ 32 = ip_ver := Nat.mod_eq_of_lt h2
  have hr1 : AXI_1WIRE_HOST_mReadReg bus baseaddr AXI_1WIRE_HOST_IPID_REG_OFFSET w
      = (ip_id, ⟨d1, w.log ++ [Access.load (IPID_REG baseaddr) ip_id]⟩) := by
    simp only [AXI_1WIRE_HOST_mReadReg, hid', m1]
  have hr2 : AXI_1WIRE_HOST_mReadReg bus baseaddr AXI_1WIRE_HOST_IPVER_REG_OFFSET
      ⟨d1, w.log ++ [Access.load (IPID_REG baseaddr) ip_id]⟩
      = (ip_ver, ⟨d2, w.log ++ [Access.load (IPID_REG baseaddr) ip_id]
          ++ [Access.load (IPVER_REG baseaddr) ip_ver]⟩) := by
    simp only [AXI_1WIRE_HOST_mReadReg, hver', m2]
  have htop : (ip_ver >>> 24) &&& 0xFF = ip_ver / 2 ^ 24 := by
    rw [Nat.shiftRight_eq_div_pow]
    have : ip_ver / 2 ^ 24 < 2 ^ 8 := by omega
    exact Nat.and_pow_two_sub_one_of_lt_two_pow (n := 8) this
  have hrun : AXI_1WIRE_HOST_SelfTest bus baseaddr w
      = (if ip_id = 0x10EE4453 ∧ (ip_ver >>> 24) &&& 0xFF = 0x76 then XStatus.XST_SUCCESS
          else XStatus.XST_FAILURE,
        ⟨d2, w.log ++ [Access.load (IPID_REG baseaddr) ip_id,
                      Access.load (IPVER_REG baseaddr) ip_ver]⟩) := by
    simp only [AXI_1WIRE_HOST_SelfTest, hr1, hr2]
    by_cases c1 : ip_id = 0x10EE4453
    · by_cases c2 : (ip_ver >>> 24) &&& 0xFF = 0x76
      · simp [c1, c2]
      · simp [c1, c2]
    · simp [c1]
  rw [hrun]
  refine ⟨?_, ?_, ?_, htop, rfl, ?_, rfl, ?_⟩
  · by_cases c : ip_id = 0x10EE4453 ∧ (ip_ver >>> 24) &&& 0xFF = 0x76
    · simp only [if_pos c, true_iff]; exact c
    · simp only [if_neg c, false_iff]
      constructor
      · intro hc; exact absurd hc (by decide)
      · intro hc; exact absurd hc c
  · by_cases c : ip_id = 0x10EE4453 ∧ (ip_ver >>> 24) &&& 0xFF = 0x76
    · simp only [if_pos c]
      constructor
      · intro hc; exact absurd hc (by decide)
      · intro hc; exact absurd c hc
    · simp only [if_neg c, true_iff]; exact c
  · intro hne
    have c : ¬ (ip_id = 0x10EE4453 ∧ (ip_ver >>> 24) &&& 0xFF = 0x76) := fun hc => hne hc.1
    simp only [if_neg c]
  · simp [stores_append, stores]
  · intro e1 e2
    show d2 = w.dev
    rw [e2, e1]

theorem SelfTest_identification_witness :
    (AXI_1WIRE_HOST_SelfTest registerFile 0x40000000 (World.start demoRegs)).1
        = XStatus.XST_SUCCESS
      ∧ (AXI_1WIRE_HOST_SelfTest registerFile 0x40000000 (World.start demoRegs)).2.dev
        = demoRegs := by
  obtain ⟨hok, _, _, _, _, _, _, hdev⟩ :=
    SelfTest_identification registerFile 0x40000000 0x10EE4453 0x76000102
      (World.start demoRegs) demoRegs demoRegs rfl rfl (by decide) (by decide)
  exact ⟨hok.2 ⟨rfl, by decide⟩, hdev rfl rfl⟩

/-! ## GPIO mode -/

theorem gpio_addrs (b : Nat) :
    INSTR_REG b ≠ STAT_REG b ∧ INSTR_REG b ≠ RXDATA_REG b ∧ INSTR_REG b ≠ CTRL_REG b
      ∧ GPIODATA_REG b ≠ STAT_REG b ∧ GPIODATA_REG b ≠ RXDATA_REG b
      ∧ GPIODATA_REG b ≠ CTRL_REG b := by
  simp only [INSTR_REG, STAT_REG, RXDATA_REG, CTRL_REG, GPIODATA_REG, regAddr,
    AXI_1WIRE_HOST_INSTR_REG_OFFSET, AXI_1WIRE_HOST_STAT_REG_OFFSET,
    AXI_1WIRE_HOST_RXDATA_REG_OFFSET, AXI_1WIRE_HOST_CTRL_REG_OFFSET,
    AXI_1WIRE_HOST_GPIODATA_REG_OFFSET]
  omega

theorem gpioEchoBus_echoes (b : Nat) : EchoesGpioWrite (gpioEchoBus b) b (fun d => d &&& 1) := by
  refine ⟨fun d => ?_, fun d => ?_, fun d => ?_, fun d => ?_⟩ <;> simp [gpioEchoBus]

/-- The device and the log after `AXI_1WIRE_HOST_GPIO_Write`: one store to INSTR, of `0x80010000`
if bit 0 of `bit` is set and of `0x80000000` otherwise. -/
theorem GPIO_Write_run {σ : Type} (bus : Bus σ) (b bit : Nat) (w : World σ) :
    AXI_1WIRE_HOST_GPIO_Write bus b bit w
      = { dev := bus.Xil_Out32 (INSTR_REG b)
                  (if bit.testBit 0 then 0x80010000 else 0x80000000) w.dev
          log := w.log ++ [Access.store (INSTR_REG b)
                  (if bit.testBit 0 then 0x80010000 else 0x80000000)] } := by
  have hb1 : bit &&& 1 = if bit.testBit 0 then 1 else 0 := and_one_eq_ite bit
  by_cases hb : bit.testBit 0 = true
  · have h1 : bit &&& 0x1 ≠ 0 := by rw [hb1, if_pos hb]; decide
    simp only [AXI_1WIRE_HOST_GPIO_Write, AXI_1WIRE_HOST_mWriteReg, if_pos h1, if_pos hb]
    rfl
  · have h1 : ¬ (bit &&& 0x1 ≠ 0) := by rw [hb1, if_neg hb]; decide
    simp only [AXI_1WIRE_HOST_GPIO_Write, AXI_1WIRE_HOST_mWriteReg, if_neg h1, if_neg hb]
    rfl

/-- The result, the device and the log after `AXI_1WIRE_HOST_GPIO_Read`: the store of
`0x80800000` to INSTR, then one load of GPIODATA whose bit 0 is returned. -/
theorem GPIO_Read_run {σ : Type} (bus : Bus σ) (b : Nat) (w : World σ) :
    AXI_1WIRE_HOST_GPIO_Read bus b w
      = (((bus.Xil_In32 (GPIODATA_REG b)
              (bus.Xil_Out32 (INSTR_REG b) 0x80800000 w.dev)).1 % 2 ^ 32) &&& 1,
          { dev := (bus.Xil_In32 (GPIODATA_REG b)
                      (bus.Xil_Out32 (INSTR_REG b) 0x80800000 w.dev)).2
            log := w.log ++ [Access.store (INSTR_REG b) 0x80800000,
                      Access.load (GPIODATA_REG b)
                        ((bus.Xil_In32 (GPIODATA_REG b)
                          (bus.Xil_Out32 (INSTR_REG b) 0x80800000 w.dev)).1 % 2 ^ 32)] }) := by
  simp only [AXI_1WIRE_HOST_GPIO_Read, AXI_1WIRE_HOST_mReadReg, AXI_1WIRE_HOST_mWriteReg,
    and_one_mod_256, List.append_assoc, List.singleton_append]
  rfl

/-- C7: on every device that echoes GPIO writes (storing `0x80010000` to INSTR sets the echoed
bit, storing `0x80000000` clears it, storing the read opcode `0x80800000` leaves it alone, and
bit 0 of GPIODATA returns it), for every `bit`, `AXI_1WIRE_HOST_GPIO_Write bit` followed by
`AXI_1WIRE_HOST_GPIO_Read` makes exactly three accesses. First the device takes the store to
INSTR of `0x80010000` if bit 0 of `bit` is set and of `0x80000000` otherwise (state `d1`); then
the store of `0x80800000` to INSTR (state `d2`); then one load of GPIODATA in state `d2`, which
returns the 32-bit value `g` and leaves the device in the final state. The result is bit 0 of
that `g`, and it equals `bit &&& 1`, so 1 for `bit = 1`. STAT, RXDATA and CTRL are not touched,
so nothing is polled. -/
theorem gpio_write_then_read {σ : Type} (bus : Bus σ) (baseaddr bit : Nat) (w : World σ)
    (latch : σ → Nat) (hecho : EchoesGpioWrite bus baseaddr latch) :
    ∃ (g : Nat) (added : List Access) (d1 d2 : σ),
      d1 = bus.Xil_Out32 (INSTR_REG baseaddr)
            (if bit.testBit 0 then 0x80010000 else 0x80000000) w.dev
      ∧ (AXI_1WIRE_HOST_GPIO_Write bus baseaddr bit w).dev = d1
      ∧ (AXI_1WIRE_HOST_GPIO_Write bus baseaddr bit w).log
          = w.log ++ [Access.store (INSTR_REG baseaddr)
                        (if bit.testBit 0 then 0x80010000 else 0x80000000)]
      ∧ d2 = bus.Xil_Out32 (INSTR_REG baseaddr) 0x80800000 d1
      ∧ g = (bus.Xil_In32 (GPIODATA_REG baseaddr) d2).1 % 2 ^ 32
      ∧ (AXI_1WIRE_HOST_GPIO_Read bus baseaddr
          (AXI_1WIRE_HOST_GPIO_Write bus baseaddr bit w)).1 = g &&& 1
      ∧ (AXI_1WIRE_HOST_GPIO_Read bus baseaddr
          (AXI_1WIRE_HOST_GPIO_Write bus baseaddr bit w)).2.dev
          = (bus.Xil_In32 (GPIODATA_REG baseaddr) d2).2
      ∧ (AXI_1WIRE_HOST_GPIO_Read bus baseaddr
          (AXI_1WIRE_HOST_GPIO_Write bus baseaddr bit w)).1 = bit &&& 1
      ∧ (bit = 1 → (AXI_1WIRE_HOST_GPIO_Read bus baseaddr
          (AXI_1WIRE_HOST_GPIO_Write bus baseaddr bit w)).1 = 1)
      ∧ (AXI_1WIRE_HOST_GPIO_Read bus baseaddr
          (AXI_1WIRE_HOST_GPIO_Write bus baseaddr bit w)).2.log = w.log ++ added
      ∧ added = [Access.store (INSTR_REG baseaddr)
                    (if bit.testBit 0 then 0x80010000 else 0x80000000),
                 Access.store (INSTR_REG baseaddr) 0x80800000,
                 Access.load (GPIODATA_REG baseaddr) g]
      ∧ g &&& 1 = bit &&& 1
      ∧ STAT_REG baseaddr ∉ touched added
      ∧ RXDATA_REG baseaddr ∉ touched added
      ∧ CTRL_REG baseaddr ∉ touched added := by
  obtain ⟨hset, hclr, hkeep, hget⟩ := hecho
  obtain ⟨a1, a2, a3, a4, a5, a6⟩ := gpio_addrs baseaddr
  have hb1 : bit &&& 1 = if bit.testBit 0 then 1 else 0 := and_one_eq_ite bit
  have hmod' : ∀ v : Nat, (v % 2 ^ 32) &&& 1 = v &&& 1 := by
    intro v
    simp only [Nat.and_one_is_mod]
    omega
  have hg : (bus.Xil_In32 (GPIODATA_REG baseaddr)
      (bus.Xil_Out32 (INSTR_REG baseaddr) 0x80800000
        (bus.Xil_Out32 (INSTR_REG baseaddr)
          (if bit.testBit 0 then 0x80010000 else 0x80000000) w.dev))).1 % 2 ^ 32 &&& 1
      = bit &&& 1 := by
    rw [hmod', hget, hkeep, hb1]
    by_cases hb : bit.testBit 0 = true
    · simp only [hb, if_true]; exact hset _
    · simp only [hb, if_false]; exact hclr _
  rw [GPIO_Read_run, GPIO_Write_run]
  refine ⟨_, _, _, _, rfl, rfl, rfl, rfl, rfl, rfl, rfl, hg, fun h => ?_, ?_, rfl, hg,
    ?_, ?_, ?_⟩
  · show _ % 2 ^ 32 &&& 1 = 1
    rw [hg, h]
    rfl
  · simp
  · simp [touched, a1.symm, a4.symm]
  · simp [touched, a2.symm, a5.symm]
  · simp [touched, a3.symm, a6.symm]

theorem gpio_write_then_read_witness :
    (AXI_1WIRE_HOST_GPIO_Read (gpioEchoBus 0x40000000) 0x40000000
        (AXI_1WIRE_HOST_GPIO_Write (gpioEchoBus 0x40000000) 0x40000000 1 (World.start 0))).1 = 1
      ∧ (AXI_1WIRE_HOST_GPIO_Read (gpioEchoBus 0x40000000) 0x40000000
        (AXI_1WIRE_HOST_GPIO_Write (gpioEchoBus 0x40000000) 0x40000000 1 (World.start 0))).2.log
        = [Access.store 0x40000000 0x80010000, Access.store 0x40000000 0x80800000,
           Access.load 0x40000014 1] := by
  obtain ⟨g, added, d1, d2, _, _, _, _, _, _, _, _, h1, _⟩ :=
    gpio_write_then_read (gpioEchoBus 0x40000000) 0x40000000 1 (World.start 0)
      (fun d => d &&& 1) (gpioEchoBus_echoes 0x40000000)
  exact ⟨h1 rfl, rfl⟩

/-! ## Polling without a bound -/

/-- Enough fuel gives a result: an operation returns as soon as the fuel covers the polls up to
the first READY and the polls up to the first DONE after GO. -/
theorem exec_complete {σ : Type} (bus : Bus σ) (b fuel i j : Nat) (w : World σ) (op : Op)
    (hi : i < fuel) (hj : j < fuel)
    (hready : FirstSeen bus b 0x10 (op.enter bus b w) i)
    (hdone : FirstSeen bus b 0x01 (armed bus b op.opcode i (op.enter bus b w)) j) :
    ∃ w', op.exec bus b fuel w = some w' := by
  cases op with
  | touchBit bit =>
    show ∃ w', (AXI_1WIRE_HOST_TouchBit bus b bit fuel w).map Prod.snd = some w'
    rw [TouchBit_eq]
    exact ⟨_, Option.map_eq_some'.2
      ⟨_, (handshake_iff bus b _ fuel w _ _).2 ⟨i, j, hi, hj, hready, hdone, rfl⟩, rfl⟩⟩
  | readByte =>
    show ∃ w', (AXI_1WIRE_HOST_ReadByte bus b fuel w).map Prod.snd = some w'
    rw [ReadByte_eq]
    exact ⟨_, Option.map_eq_some'.2
      ⟨_, (handshake_iff bus b _ fuel w _ _).2 ⟨i, j, hi, hj, hready, hdone, rfl⟩, rfl⟩⟩
  | writeByte byte =>
    show ∃ w', AXI_1WIRE_HOST_WriteByte bus b byte fuel w = some w'
    rw [WriteByte_eq]
    exact ⟨_, (handshake_iff bus b _ fuel w _ _).2 ⟨i, j, hi, hj, hready, hdone, rfl⟩⟩
  | resetBus =>
    show ∃ w', (AXI_1WIRE_HOST_ResetBus bus b fuel w).map Prod.snd = some w'
    rw [ResetBus_eq]
    exact ⟨_, Option.map_eq_some'.2
      ⟨_, (handshake_iff bus b _ fuel _ _ _).2 ⟨i, j, hi, hj, hready, hdone, rfl⟩, rfl⟩⟩

theorem stream_statLoads_dev (b : Nat) (s o : Nat → Nat) (n : Nat) (w : World Nat) :
    (statLoads (streamBus b s o) b n w).dev = w.dev + n := by
  induction n generalizing w with
  | zero => rfl
  | succ n ih =>
    show (statLoads (streamBus b s o) b n _).dev = _
    rw [ih]
    simp only [AXI_1WIRE_HOST_mReadReg, streamBus, if_true]
    omega

theorem stream_statVal (b : Nat) (s o : Nat → Nat) (w : World Nat) (k : Nat) :
    statVal (streamBus b s o) b w k = s (w.dev + k) % 2 ^ 32 := by
  have h := stream_statLoads_dev b s o k w
  simp only [statVal, AXI_1WIRE_HOST_mReadReg, h]
  simp [streamBus]

theorem stream_armed_dev (b : Nat) (s o : Nat → Nat) (op i : Nat) (w : World Nat) :
    (armed (streamBus b s o) b op i w).dev = w.dev + (i + 1) :=
  stream_statLoads_dev b s o (i + 1) w

theorem stream_enter_dev (b : Nat) (s o : Nat → Nat) (w : World Nat) (op : Op) :
    (op.enter (streamBus b s o) b w).dev = w.dev := by
  cases op <;> rfl

theorem testBit_mod_32 (v m : Nat) (hm : m < 32) : (v % 2 ^ 32).testBit m = v.testBit m := by
  rw [Nat.testBit_mod_two_pow]
  simp [hm]

/-- On a stream device the polls see the stream itself: bit `m` is first seen at load `i` exactly
when the stream shows it first at offset `i` from position `w.dev`. -/
theorem stream_firstSeen (b : Nat) (s o : Nat → Nat) (m : Nat) (hm : m < 32) (w : World Nat)
    (i : Nat) :
    FirstSeen (streamBus b s o) b (2 ^ m) w i ↔ FirstBit s m w.dev i := by
  unfold FirstSeen FirstBit
  simp only [stream_statVal, and_two_pow_eq_zero_iff, and_two_pow_ne_zero_iff, testBit_mod_32 _ m hm]

theorem firstBit_unique (s : Nat → Nat) (m a i j : Nat)
    (hi : FirstBit s m a i) (hj : FirstBit s m a j) : i = j := by
  rcases Nat.lt_trichotomy i j with h | h | h
  · have := hj.1 i h
    rw [hi.2] at this
    exact absurd this (by decide)
  · exact h
  · have := hi.1 j h
    rw [hj.2] at this
    exact absurd this (by decide)

theorem firstBit_exists (s : Nat → Nat) (m a n : Nat) (h : (s (a + n)).testBit m = true) :
    ∃ i, i ≤ n ∧ FirstBit s m a i := by
  have hex : ∃ i, (s (a + i)).testBit m = true := ⟨n, h⟩
  refine ⟨Nat.find hex, Nat.find_min' hex h, ?_, Nat.find_spec hex⟩
  intro k hk
  have := Nat.find_min hex hk
  simpa using this

/-- On a stream device an operation returns within `fuel` polls per loop exactly when READY shows
first at some position `i < fuel` and DONE shows first, from position `i + 1` on, at some offset
`j < fuel`. -/
theorem stream_exec_iff (b : Nat) (s o : Nat → Nat) (fuel : Nat) (op : Op) :
    (∃ w', op.exec (streamBus b s o) b fuel (World.start 0) = some w')
      ↔ ∃ i j, i < fuel ∧ j < fuel ∧ FirstBit s 4 0 i ∧ FirstBit s 0 (i + 1) j := by
  constructor
  · rintro ⟨w', h⟩
    obtain ⟨i, j, opc, first, last, w0, X, hi, hj, _, hready, hdone, _, _, _, hw0⟩ :=
      exec_some _ b fuel _ w' op h
    have hr := (stream_firstSeen b s o 4 (by norm_num) w0 i).1 hready
    have hd := (stream_firstSeen b s o 0 (by norm_num) _ j).1 hdone
    rw [stream_armed_dev, hw0, stream_enter_dev] at hd
    rw [hw0, stream_enter_dev] at hr
    refine ⟨i, j, hi, hj, hr, ?_⟩
    simpa [World.start] using hd
  · rintro ⟨i, j, hi, hj, hr, hd⟩
    refine exec_complete _ b fuel i j _ op hi hj ?_ ?_
    · refine (stream_firstSeen b s o 4 (by norm_num) _ i).2 ?_
      rw [stream_enter_dev]
      exact hr
    · refine (stream_firstSeen b s o 0 (by norm_num) _ j).2 ?_
      rw [stream_armed_dev, stream_enter_dev]
      simpa [World.start] using hd

/-- The number of STAT loads of a run on a stream device. -/
theorem stream_exec_count (b : Nat) (s o : Nat → Nat) (fuel : Nat) (op : Op) (w' : World Nat)
    (h : op.exec (streamBus b s o) b fuel (World.start 0) = some w') :
    ∃ i j, FirstBit s 4 0 i ∧ FirstBit s 0 (i + 1) j
      ∧ loadCount (STAT_REG b) w'.log
          = i + 1 + (j + 1) + (if op = Op.resetBus then 1 else 0) := by
  obtain ⟨i, j, opc, first, last, w0, X, hi, hj, hlog0, hready, hdone, hX, hw', hop, hw0⟩ :=
    exec_some _ b fuel _ w' op h
  obtain ⟨rs, ds, r, d, _, _, _, _, hrs, hds, hlog⟩ :=
    handshake_shape _ b opc i j w0 hready hdone
  have hr := (stream_firstSeen b s o 4 (by norm_num) w0 i).1 hready
  have hd := (stream_firstSeen b s o 0 (by norm_num) _ j).1 hdone
  rw [stream_armed_dev, hw0, stream_enter_dev] at hd
  rw [hw0, stream_enter_dev] at hr
  have hne := stat_ne_rxdata b
  refine ⟨i, j, hr, by simpa [World.start] using hd, ?_⟩
  rw [hw', mWriteReg_log, hX, hlog, hlog0]
  cases op with
  | touchBit bit =>
    obtain ⟨hf, _, hla⟩ := hop
    subst hf
    by_cases hb : bit ≠ 0
    · simp only [if_pos hb] at hla
      obtain ⟨x, hx⟩ := hla
      subst hx
      simp [World.start, loadCount_append, loadCount_statTrace_self, loadCount, hrs, hds, hne.symm]
    · simp only [if_neg hb] at hla
      subst hla
      simp [World.start, loadCount_append, loadCount_statTrace_self, loadCount, hrs, hds]
  | readByte =>
    obtain ⟨hf, _, x, hx⟩ := hop
    subst hf; subst hx
    simp [World.start, loadCount_append, loadCount_statTrace_self, loadCount, hrs, hds, hne.symm]
  | writeByte byte =>
    obtain ⟨hf, _, hla⟩ := hop
    subst hf; subst hla
    simp [World.start, loadCount_append, loadCount_statTrace_self, loadCount, hrs, hds]
  | resetBus =>
    obtain ⟨hf, _, p, hp⟩ := hop
    subst hf; subst hp
    simp [World.start, loadCount_append, loadCount_statTrace_self, loadCount, hrs, hds]
    omega

theorem firstBit_ready_iff (s : Nat → Nat) (i : Nat) :
    FirstBit s 4 0 i
      ↔ (∀ k, k < i → (s k).testBit 4 = false) ∧ (s i).testBit 4 = true := by
  simp [FirstBit]

theorem firstBit_done_of (s : Nat → Nat) (i j : Nat) (hij : i < j)
    (hclear : ∀ k, i < k → k < j → (s k).testBit 0 = false) (hset : (s j).testBit 0 = true) :
    FirstBit s 0 (i + 1) (j - (i + 1)) := by
  refine ⟨fun k hk => hclear (i + 1 + k) (by omega) (by omega), ?_⟩
  have e : i + 1 + (j - (i + 1)) = j := by omega
  rw [e]
  exact hset

/-- C10: over a device whose successive STAT loads return the stream `stat` (bit 4 is READY,
bit 0 is DONE), for each of TouchBit, ReadByte, WriteByte and ResetBus:
the call returns for some number of polls if and only if some STAT value has READY set and some
later one has DONE set; if READY is never set, or DONE is never set after the first READY, the
call returns for no number of polls; and when `i` is the first position with READY and `j` the
first later position with DONE, the call returns exactly when the polls allowed cover them, and
then it has loaded STAT `j + 1` times, plus once more in ResetBus. -/
theorem polling_never_times_out (baseaddr : Nat) (stat other : Nat → Nat) (op : Op) :
    ((∃ fuel w', op.exec (streamBus baseaddr stat other) baseaddr fuel (World.start 0) = some w')
        ↔ ∃ i j, i < j ∧ (stat i).testBit 4 = true ∧ (stat j).testBit 0 = true)
    ∧ ((∀ n, (stat n).testBit 4 = false) →
        ∀ fuel, op.exec (streamBus baseaddr stat other) baseaddr fuel (World.start 0) = none)
    ∧ (∀ i, (∀ k, k < i → (stat k).testBit 4 = false) → (stat i).testBit 4 = true →
        (∀ n, i < n → (stat n).testBit 0 = false) →
        ∀ fuel, op.exec (streamBus baseaddr stat other) baseaddr fuel (World.start 0) = none)
    ∧ (∀ i j, i < j →
        (∀ k, k < i → (stat k).testBit 4 = false) → (stat i).testBit 4 = true →
        (∀ k, i < k → k < j → (stat k).testBit 0 = false) → (stat j).testBit 0 = true →
        ∀ fuel,
          ((∃ w', op.exec (streamBus baseaddr stat other) baseaddr fuel (World.start 0) = some w')
            ↔ i < fuel ∧ j < i + 1 + fuel)
          ∧ ∀ w', op.exec (streamBus baseaddr stat other) baseaddr fuel (World.start 0) = some w' →
              loadCount (STAT_REG baseaddr) w'.log
                = j + 1 + (if op = Op.resetBus then 1 else 0)) := by
  refine ⟨⟨?_, ?_⟩, ?_, ?_, ?_⟩
  · rintro ⟨fuel, w', h⟩
    obtain ⟨i, j, _, _, hr, hd⟩ := (stream_exec_iff baseaddr stat other fuel op).1 ⟨w', h⟩
    exact ⟨i, i + 1 + j, by omega, by simpa using hr.2, hd.2⟩
  · rintro ⟨i, j, hij, hr, hd⟩
    obtain ⟨i0, hi0, hf0⟩ := firstBit_exists stat 4 0 i (by simpa using hr)
    have e : i0 + 1 + (j - (i0 + 1)) = j := by omega
    obtain ⟨j0, _, hg0⟩ := firstBit_exists stat 0 (i0 + 1) (j - (i0 + 1)) (by rw [e]; exact hd)
    obtain ⟨w', h⟩ := (stream_exec_iff baseaddr stat other (i0 + j0 + 1) op).2
      ⟨i0, j0, by omega, by omega, hf0, hg0⟩
    exact ⟨_, w', h⟩
  · intro hnever fuel
    cases h : op.exec (streamBus baseaddr stat other) baseaddr fuel (World.start 0) with
    | none => rfl
    | some w' =>
      obtain ⟨i, j, _, _, hr, _⟩ := (stream_exec_iff baseaddr stat other fuel op).1 ⟨w', h⟩
      have h1 := hr.2
      rw [Nat.zero_add, hnever i] at h1
      exact absurd h1 (by decide)
  · intro i hclear hset hnever fuel
    cases h : op.exec (streamBus baseaddr stat other) baseaddr fuel (World.start 0) with
    | none => rfl
    | some w' =>
      obtain ⟨i', j, _, _, hr, hd⟩ := (stream_exec_iff baseaddr stat other fuel op).1 ⟨w', h⟩
      have hii : i' = i :=
        firstBit_unique stat 4 0 i' i hr ((firstBit_ready_iff stat i).2 ⟨hclear, hset⟩)
      subst hii
      have h1 := hd.2
      rw [hnever (i' + 1 + j) (by omega)] at h1
      exact absurd h1 (by decide)
  · intro i j hij hclear hset hdclear hdset fuel
    have hR : FirstBit stat 4 0 i := (firstBit_ready_iff stat i).2 ⟨hclear, hset⟩
    have hD : FirstBit stat 0 (i + 1) (j - (i + 1)) := firstBit_done_of stat i j hij hdclear hdset
    refine ⟨⟨?_, ?_⟩, ?_⟩
    · rintro ⟨w', h⟩
      obtain ⟨i', j', hi', hj', hr, hd⟩ :=
        (stream_exec_iff baseaddr stat other fuel op).1 ⟨w', h⟩
      have hii : i' = i := firstBit_unique stat 4 0 i' i hr hR
      subst hii
      have hjj : j' = j - (i' + 1) := firstBit_unique stat 0 (i' + 1) _ _ hd hD
      omega
    · rintro ⟨hi, hj⟩
      exact (stream_exec_iff baseaddr stat other fuel op).2
        ⟨i, j - (i + 1), hi, by omega, hR, hD⟩
    · intro w' h
      obtain ⟨i', j', hr, hd, hcnt⟩ := stream_exec_count baseaddr stat other fuel op w' h
      have hii : i' = i := firstBit_unique stat 4 0 i' i hr hR
      subst hii
      have hjj : j' = j - (i' + 1) := firstBit_unique stat 0 (i' + 1) _ _ hd hD
      rw [hcnt, hjj]
      omega

end Axi1WireHost
